import Mathlib

/-!
# Car lifecycle demo: ledger contract and REST gateway

A shallow embedding of `Ex1_cardemo_chaincode.go` (the ledger contract) and of the
request handlers of `Ex2_cardemo_api.go`, followed by theorems about them.

Conventions of the embedding

* A Go `string` is a Lean `String`, a Go `int` is an `Int` (the program does no
  arithmetic on its prices, so no wrap-around is involved), a Go `[]byte` holding
  text is a `String`, and a possibly-nil `[]byte` is an `Option String`.
* A Go `error` is an `Option String`: `none` is `nil`, `some msg` carries `err.Error()`.
* The ledger platform's stub (`GetState`, `PutState`, `GetStateByRange`) is not part of
  the program.  It is modelled as a finite key/value map together with per-call failure
  oracles, so that "the read failed" and "the write failed" are inputs like any other.
* `encoding/json` is not part of the program either.  The contract is parameterised by a
  codec `J`; the one law used about it, `Unmarshal (Marshal c) = c`, is always an explicit
  hypothesis.  `goJson` further down is an executable instance producing the documents
  `json.Marshal` produces for a `Car`, for which the law is proved.
* `time.Now().Format(..)` is an input of the transaction (`Env.now`).
-/

namespace CarDemo

/-! ## Data model (`Ex1_cardemo_chaincode.go`, lines 23-45) -/

/-- Go `error`: `none` is `nil`. -/
abbrev GoError := Option String

/-- Text held in a Go `[]byte`. -/
abbrev Bytes := String

/-- The `Car` record of the world state. -/
structure Car where
  ManufacturerId : String
  CarId : String
  DealerId : String
  ConsumerId : String
  CarMake : String
  CarModel : String
  CarColor : String
  Status : String
  ManufacturingDate : String
  ShippingDate : String
  DeliveryDate : String
  SoldOnDate : String
  ManufacturerPrice : Int
  ShippingPrice : Int
  CustomerPrice : Int
deriving DecidableEq, Repr

/-- The value of `new(Car)` and of omitted fields in a composite literal. -/
def Car.zero : Car :=
  { ManufacturerId := "", CarId := "", DealerId := "", ConsumerId := "", CarMake := "",
    CarModel := "", CarColor := "", Status := "", ManufacturingDate := "",
    ShippingDate := "", DeliveryDate := "", SoldOnDate := "",
    ManufacturerPrice := 0, ShippingPrice := 0, CustomerPrice := 0 }

/-- The `QueryResult` record; `Record` is the car the pointer refers to. -/
structure QueryResult where
  Key : String
  Record : Car
deriving DecidableEq, Repr

/-! ## The JSON codec the contract is parameterised by -/

/-- The two `encoding/json` entry points the contract calls.  `Unmarshal data` is the
car left in a fresh `new(Car)` by `json.Unmarshal(data, car)`; every caller discards the
error result, so only the car is modelled. -/
structure JsonCodec where
  Marshal : Car → Bytes
  Unmarshal : Bytes → Car

/-- Decoding an encoded car gives the car back. -/
def JsonCodec.RoundTrip (J : JsonCodec) : Prop :=
  ∀ c : Car, J.Unmarshal (J.Marshal c) = c

/-! ## The world state and the platform stub -/

/-- Value stored under `k` in an association list, if any. -/
def getEntry (k : String) : List (String × Bytes) → Option Bytes
  | [] => none
  | (k', v') :: rest => if k' = k then some v' else getEntry k rest

/-- Store `v` under `k`: overwrite the entry of `k` when there is one, add one otherwise. -/
def putEntry (k : String) (v : Bytes) : List (String × Bytes) → List (String × Bytes)
  | [] => [(k, v)]
  | (k', v') :: rest => if k' = k then (k, v) :: rest else (k', v') :: putEntry k v rest

/-- The ledger's world state: finitely many keys, each holding one value. -/
structure WorldState where
  entries : List (String × Bytes)
  nodup : (entries.map Prod.fst).Nodup

/-- The world state with no key. -/
def WorldState.empty : WorldState := ⟨[], List.nodup_nil⟩

/-- Value under `k`, `none` when the key is absent. -/
def WorldState.get (w : WorldState) (k : String) : Option Bytes := getEntry k w.entries

/-- The world state after `v` was written under `k`. -/
def WorldState.put (w : WorldState) (k : String) (v : Bytes) : WorldState :=
  { entries := putEntry k v w.entries
    nodup := by
      have key : ∀ l : List (String × Bytes), (l.map Prod.fst).Nodup →
          ((putEntry k v l).map Prod.fst).Nodup ∧
            ∀ x, x ∈ (putEntry k v l).map Prod.fst → x = k ∨ x ∈ l.map Prod.fst := by
        intro l
        induction l with
        | nil => intro _; simp [putEntry]
        | cons kv rest ih =>
          intro h
          rw [List.map_cons, List.nodup_cons] at h
          obtain ⟨ihn, ihm⟩ := ih h.2
          by_cases hk : kv.1 = k
          · simp only [putEntry, hk, if_true, List.map_cons, List.nodup_cons]
            refine ⟨⟨hk ▸ h.1, h.2⟩, fun x hx => ?_⟩
            rcases List.mem_cons.mp hx with hx | hx
            · exact Or.inl hx
            · exact Or.inr (List.mem_cons_of_mem _ hx)
          · simp only [putEntry, hk, if_false, List.map_cons, List.nodup_cons]
            refine ⟨⟨fun hmem => ?_, ihn⟩, fun x hx => ?_⟩
            · rcases ihm _ hmem with e | e
              · exact hk e
              · exact h.1 e
            · rcases List.mem_cons.mp hx with hx | hx
              · exact Or.inr (hx ▸ List.mem_cons_self _ _)
              · rcases ihm x hx with e | e
                · exact Or.inl e
                · exact Or.inr (List.mem_cons_of_mem _ e)
      exact (key w.entries w.nodup).1 }

/-- The keys present, in the order a range scan delivers them.  That order (the key
order, on the platform) is not modelled beyond being some fixed order. -/
def WorldState.keys (w : WorldState) : List String := w.entries.map Prod.fst

/-- What the platform contributes to one transaction besides the world state: whether
each stub call fails (and with which message), and the text `time.Now().Format(..)`
evaluates to. -/
structure Env where
  getStateErr : String → GoError
  putStateErr : String → Bytes → GoError
  rangeErr : GoError
  nextErr : String → GoError
  now : String

/-- `ctx.GetStub().GetState(key)`: the stored bytes, `nil` (`none`) for an absent key. -/
def GetState (env : Env) (w : WorldState) (key : String) : Except String (Option Bytes) :=
  match env.getStateErr key with
  | some e => .error e
  | none => .ok (w.get key)

/-- `ctx.GetStub().PutState(key, value)`: a failed write leaves the state as it was. -/
def PutState (env : Env) (w : WorldState) (key : String) (value : Bytes) :
    WorldState × GoError :=
  match env.putStateErr key value with
  | some e => (w, some e)
  | none => (w.put key value, none)

/-- `ctx.GetStub().GetStateByRange(startKey, endKey)`: the entries with
`startKey ≤ key < endKey`, an empty bound being no bound. -/
def GetStateByRange (env : Env) (w : WorldState) (startKey endKey : String) :
    Except String (List (String × Bytes)) :=
  match env.rangeErr with
  | some e => .error e
  | none =>
    .ok (w.entries.filter fun kv =>
      (startKey == "" || decide (startKey ≤ kv.1)) && (endKey == "" || decide (kv.1 < endKey)))

/-! ## The contract (`Ex1_cardemo_chaincode.go`) -/

/-- The slice literal `cars` of `InitLedger` (lines 49-54). -/
def sampleCars : List Car :=
  [ { ManufacturerId := "MOrg01", CarId := "M101", DealerId := "D101", ConsumerId := "CUST101",
      CarMake := "2022", CarModel := "MOrg01CM101", CarColor := "Red", Status := "SOLD",
      ManufacturingDate := "2022/01/01", ShippingDate := "2022/02/01",
      DeliveryDate := "2022/02/20", SoldOnDate := "2022/04/20",
      ManufacturerPrice := 350000, ShippingPrice := 10000, CustomerPrice := 550000 },
    { ManufacturerId := "MOrg01", CarId := "M102", DealerId := "D102", ConsumerId := "CUST102",
      CarMake := "2022", CarModel := "MOrg01CM102", CarColor := "Blue", Status := "SOLD",
      ManufacturingDate := "2022/01/01", ShippingDate := "2022/02/01",
      DeliveryDate := "2022/02/20", SoldOnDate := "2022/04/20",
      ManufacturerPrice := 360000, ShippingPrice := 10000, CustomerPrice := 600000 },
    { ManufacturerId := "MOrg02", CarId := "M103", DealerId := "D102", ConsumerId := "CUST103",
      CarMake := "2022", CarModel := "MOrg02CM103", CarColor := "Blue", Status := "SOLD",
      ManufacturingDate := "2022/01/01", ShippingDate := "2022/02/01",
      DeliveryDate := "2022/02/20", SoldOnDate := "2022/04/20",
      ManufacturerPrice := 360000, ShippingPrice := 10000, CustomerPrice := 630000 },
    { ManufacturerId := "MOrg02", CarId := "M104", DealerId := "D101", ConsumerId := "CUST101",
      CarMake := "2022", CarModel := "MOrg01CM101", CarColor := "Red", Status := "SOLD",
      ManufacturingDate := "2022/01/01", ShippingDate := "2022/02/01",
      DeliveryDate := "2022/02/20", SoldOnDate := "2022/04/20",
      ManufacturerPrice := 350000, ShippingPrice := 10000, CustomerPrice := 550000 } ]

/-- `strconv.Itoa` on a slice index. -/
def Itoa (i : Nat) : String := Nat.repr i

/-- The `for i, car := range cars` loop of `InitLedger` (lines 56-63), from index `i` on:
the first failed write ends the loop with a wrapped error. -/
def InitLedger.loop (J : JsonCodec) (env : Env) :
    Nat → List Car → WorldState → WorldState × GoError
  | _, [], w => (w, none)
  | i, car :: rest, w =>
    let carAsBytes := J.Marshal car
    match PutState env w ("CAR" ++ Itoa i) carAsBytes with
    | (w', some err) => (w', some ("Failed Car data to put to world state. " ++ err))
    | (w', none) => InitLedger.loop J env (i + 1) rest w'

/-- `InitLedger` (lines 48-66). -/
def InitLedger (J : JsonCodec) (env : Env) (w : WorldState) : WorldState × GoError :=
  InitLedger.loop J env 0 sampleCars w

/-- `createNewCar` (lines 69-89). -/
def createNewCar (J : JsonCodec) (env : Env) (w : WorldState)
    (manufacturerId carId carMake carModel carColor manufacturingDate : String)
    (manufacturerPrice : Int) (role : String) : WorldState × GoError :=
  if role ≠ "manufacturer" then
    (w, some "Failed to put new Car to world state due to unauthorized user")
  else
    let car : Car :=
      { Car.zero with
        ManufacturerId := manufacturerId
        CarId := carId
        CarMake := carMake
        CarModel := carModel
        CarColor := carColor
        Status := "CREATED"
        ManufacturingDate := manufacturingDate
        ManufacturerPrice := manufacturerPrice }
    let carAsBytes := J.Marshal car
    PutState env w carId carAsBytes

/-- `QueryCar` (lines 92-107). -/
def QueryCar (J : JsonCodec) (env : Env) (w : WorldState) (carNumber : String) :
    Except String Car :=
  match GetState env w carNumber with
  | .error err => .error ("Failed to read from world state. " ++ err)
  | .ok none => .error (carNumber ++ " does not exist")
  | .ok (some carAsBytes) => .ok (J.Unmarshal carAsBytes)

/-- The `for resultsIterator.HasNext()` loop of `QueryAllCars` (lines 123-135) over the
entries the iterator still has to deliver. -/
def QueryAllCars.loop (J : JsonCodec) (env : Env) :
    List (String × Bytes) → List QueryResult → Except String (List QueryResult)
  | [], results => .ok results
  | (key, value) :: rest, results =>
    match env.nextErr key with
    | some err => .error err
    | none =>
      let car := J.Unmarshal value
      let queryResult : QueryResult := { Key := key, Record := car }
      QueryAllCars.loop J env rest (results ++ [queryResult])

/-- `QueryAllCars` (lines 110-138). -/
def QueryAllCars (J : JsonCodec) (env : Env) (w : WorldState) :
    Except String (List QueryResult) :=
  let startKey := ""
  let endKey := ""
  match GetStateByRange env w startKey endKey with
  | .error err => .error err
  | .ok resultsIterator => QueryAllCars.loop J env resultsIterator []

/-- `ShipToDealer` (lines 141-157). -/
def ShipToDealer (J : JsonCodec) (env : Env) (w : WorldState)
    (carId dealerId : String) (shippingPrice : Int) (role : String) : WorldState × GoError :=
  if role ≠ "manufacturer" then
    (w, some "Failed to put to world state due to unauthorized user")
  else
    match QueryCar J env w carId with
    | .error err => (w, some err)
    | .ok car =>
      let car := { car with
        DealerId := dealerId
        Status := "SHIPPED"
        ShippingDate := env.now
        ShippingPrice := shippingPrice }
      let carAsBytes := J.Marshal car
      PutState env w carId carAsBytes

/-- `ReceiveDelivery` (lines 160-173). -/
def ReceiveDelivery (J : JsonCodec) (env : Env) (w : WorldState)
    (carId role : String) : WorldState × GoError :=
  if role ≠ "dealer" then
    (w, some "Failed to put to world state due to unauthorized user")
  else
    match QueryCar J env w carId with
    | .error err => (w, some err)
    | .ok car =>
      let car := { car with
        Status := "READY_FOR_SALE"
        DeliveryDate := env.now }
      let carAsBytes := J.Marshal car
      PutState env w carId carAsBytes

/-- `SellToCustomer` (lines 176-193). -/
def SellToCustomer (J : JsonCodec) (env : Env) (w : WorldState)
    (carId consumerId : String) (customerPrice : Int) (role : String) : WorldState × GoError :=
  if role ≠ "dealer" then
    (w, some "Failed to put to world state due to unauthorized user")
  else
    match QueryCar J env w carId with
    | .error err => (w, some err)
    | .ok car =>
      let car := { car with
        Status := "SOLD"
        ConsumerId := consumerId
        SoldOnDate := env.now
        CustomerPrice := customerPrice }
      let carAsBytes := J.Marshal car
      PutState env w carId carAsBytes

/-! ## An executable JSON codec for `Car`

`goJson.Marshal` writes the document `json.Marshal` writes for a `Car`: one object, the
fifteen members in declaration order under their `json:"..."` names, strings quoted with
Go's escaping, integers in decimal.  `goJson.Unmarshal` reads an object whose members are
strings and integers, in any order, fills the fields whose names it knows and, like
`json.Unmarshal` into a fresh `Car` with the error discarded, yields the zero car for a
document it cannot read.  It does not accept white space or nested values, it keeps an
integer of any size (Go refuses one beyond 64 bits), and it writes the control characters
U+0008 and U+000C as `\u0008` and `\u000c`, as the toolchains before Go 1.22 do.  It
serves as the concrete codec of the worked examples; the theorems hold for every codec. -/

/-- Decimal digit `d` (for `d < 10`) or lower-case hexadecimal digit (for `d < 16`). -/
def digitChar (d : Nat) : Char :=
  if d < 10 then Char.ofNat (48 + d) else Char.ofNat (87 + d)

/-- Value of a hexadecimal digit, `none` for any other character. -/
def hexVal (c : Char) : Option Nat :=
  let n := c.toNat
  if 48 ≤ n ∧ n ≤ 57 then some (n - 48)
  else if 97 ≤ n ∧ n ≤ 102 then some (n - 87)
  else if 65 ≤ n ∧ n ≤ 70 then some (n - 55)
  else none

/-- Decimal digits of `n`, most significant first; `fuel` bounds the number of digits. -/
def natDigits : Nat → Nat → List Char
  | 0, _ => []
  | fuel + 1, n =>
    if n < 10 then [digitChar n] else natDigits fuel (n / 10) ++ [digitChar (n % 10)]

/-- Decimal text of an integer, as `strconv` and `encoding/json` write it. -/
def formatInt (i : Int) : List Char :=
  if i < 0 then '-' :: natDigits (i.natAbs + 1) i.natAbs else natDigits (i.natAbs + 1) i.natAbs

/-- Escaped form of one character inside a JSON string, as `json.Marshal` writes it. -/
def escapeChar (c : Char) : List Char :=
  if c = '"' then ['\\', '"']
  else if c = '\\' then ['\\', '\\']
  else if c = '\n' then ['\\', 'n']
  else if c = '\r' then ['\\', 'r']
  else if c = '\t' then ['\\', 't']
  else if c.toNat < 32 ∨ c = '<' ∨ c = '>' ∨ c = '&' ∨ c.toNat = 8232 ∨ c.toNat = 8233 then
    ['\\', 'u', digitChar (c.toNat / 4096 % 16), digitChar (c.toNat / 256 % 16),
      digitChar (c.toNat / 16 % 16), digitChar (c.toNat % 16)]
  else [c]

/-- Body of a JSON string: every character escaped. -/
def escape : List Char → List Char
  | [] => []
  | c :: cs => escapeChar c ++ escape cs

/-- A JSON string literal. -/
def quote (s : String) : List Char := '"' :: (escape s.data ++ ['"'])

/-- One member `"name":value` of the object. -/
def member (name : String) (value : List Char) : List Char :=
  '"' :: (name.data ++ ('"' :: ':' :: value))

/-- The document `json.Marshal(car)` produces. -/
def marshalCar (car : Car) : List Char :=
  '{' :: (member "manufacturerId" (quote car.ManufacturerId) ++ (',' ::
    (member "carId" (quote car.CarId) ++ (',' ::
    (member "dealerId" (quote car.DealerId) ++ (',' ::
    (member "consumerId" (quote car.ConsumerId) ++ (',' ::
    (member "carMake" (quote car.CarMake) ++ (',' ::
    (member "carModel" (quote car.CarModel) ++ (',' ::
    (member "carColor" (quote car.CarColor) ++ (',' ::
    (member "status" (quote car.Status) ++ (',' ::
    (member "manufacturingDate" (quote car.ManufacturingDate) ++ (',' ::
    (member "shippingDate" (quote car.ShippingDate) ++ (',' ::
    (member "deliveryDate" (quote car.DeliveryDate) ++ (',' ::
    (member "soldOnDate" (quote car.SoldOnDate) ++ (',' ::
    (member "manufacturerPrice" (formatInt car.ManufacturerPrice) ++ (',' ::
    (member "shippingPrice" (formatInt car.ShippingPrice) ++ (',' ::
    (member "customerPrice" (formatInt car.CustomerPrice) ++
      ['}'])))))))))))))))))))))))))))))

/-- Character denoted by the one-letter escape `\e`. -/
def unescape (e : Char) : Option Char :=
  if e = '"' then some '"'
  else if e = '\\' then some '\\'
  else if e = '/' then some '/'
  else if e = 'n' then some '\n'
  else if e = 'r' then some '\r'
  else if e = 't' then some '\t'
  else if e = 'b' then some (Char.ofNat 8)
  else if e = 'f' then some (Char.ofNat 12)
  else none

/-- Read a JSON string whose opening quote was consumed: the string denoted and the input
after the closing quote.  Unescaped control characters are refused. -/
def readString : List Char → Option (List Char × List Char)
  | [] => none
  | c :: rest =>
    if c = '"' then some ([], rest)
    else if c = '\\' then
      match rest with
      | [] => none
      | e :: rest1 =>
        if e = 'u' then
          match rest1 with
          | h1 :: h2 :: h3 :: h4 :: rest2 =>
            match hexVal h1, hexVal h2, hexVal h3, hexVal h4, readString rest2 with
            | some a, some b, some c3, some d, some (s, r) =>
              some (Char.ofNat (a * 4096 + b * 256 + c3 * 16 + d) :: s, r)
            | _, _, _, _, _ => none
          | _ => none
        else
          match unescape e, readString rest1 with
          | some ch, some (s, r) => some (ch :: s, r)
          | _, _ => none
    else if c.toNat < 32 then none
    else
      match readString rest with
      | some (s, r) => some (c :: s, r)
      | none => none

/-- Whether `c` is a decimal digit. -/
def isDigit (c : Char) : Bool := decide (48 ≤ c.toNat ∧ c.toNat ≤ 57)

/-- Read the leading decimal digits of the input into the accumulator. -/
def readDigits : List Char → Nat → Nat × List Char
  | [], acc => (acc, [])
  | c :: rest, acc =>
    if isDigit c then readDigits rest (acc * 10 + (c.toNat - 48)) else (acc, c :: rest)

/-- Read a JSON integer: an optional minus sign and at least one digit. -/
def readInt : List Char → Option (Int × List Char)
  | [] => none
  | c :: rest =>
    if c = '-' then
      match rest with
      | d :: _ => if isDigit d then
          let r := readDigits rest 0
          some (-(r.1 : Int), r.2) else none
      | [] => none
    else if isDigit c then
      let r := readDigits (c :: rest) 0
      some ((r.1 : Int), r.2)
    else none

/-- A member value of the flat `Car` document. -/
inductive JValue where
  | str (s : String)
  | num (i : Int)
deriving DecidableEq, Repr

/-- Read one member value: a string or an integer. -/
def readValue : List Char → Option (JValue × List Char)
  | [] => none
  | c :: rest =>
    if c = '"' then
      match readString rest with
      | some (s, r) => some (JValue.str (String.mk s), r)
      | none => none
    else
      match readInt (c :: rest) with
      | some (i, r) => some (JValue.num i, r)
      | none => none

/-- Assign a decoded member to the field carrying that `json` name.  A member of an
unknown name, or of the wrong kind for its field, leaves the car as it is. -/
def setField (car : Car) (name : String) (v : JValue) : Car :=
  match v with
  | JValue.str s =>
    if name = "manufacturerId" then { car with ManufacturerId := s }
    else if name = "carId" then { car with CarId := s }
    else if name = "dealerId" then { car with DealerId := s }
    else if name = "consumerId" then { car with ConsumerId := s }
    else if name = "carMake" then { car with CarMake := s }
    else if name = "carModel" then { car with CarModel := s }
    else if name = "carColor" then { car with CarColor := s }
    else if name = "status" then { car with Status := s }
    else if name = "manufacturingDate" then { car with ManufacturingDate := s }
    else if name = "shippingDate" then { car with ShippingDate := s }
    else if name = "deliveryDate" then { car with DeliveryDate := s }
    else if name = "soldOnDate" then { car with SoldOnDate := s }
    else car
  | JValue.num i =>
    if name = "manufacturerPrice" then { car with ManufacturerPrice := i }
    else if name = "shippingPrice" then { car with ShippingPrice := i }
    else if name = "customerPrice" then { car with CustomerPrice := i }
    else car

/-- Read the members of an object whose opening brace was consumed, at most `fuel` of
them, into `car`; `none` when the input is not such an object. -/
def readMembers : Nat → List Char → Car → Option Car
  | 0, _, _ => none
  | fuel + 1, input, car =>
    match input with
    | [] => none
    | q :: afterQuote =>
      if q = '"' then
        match readString afterQuote with
        | some (name, colon :: afterColon) =>
          if colon = ':' then
            match readValue afterColon with
            | some (v, sep :: rest) =>
              let car := setField car (String.mk name) v
              if sep = ',' then readMembers fuel rest car
              else if sep = '}' ∧ rest = [] then some car
              else none
            | _ => none
          else none
        | _ => none
      else none

/-- The car `json.Unmarshal(data, car)` leaves in a fresh `car`. -/
def unmarshalCar (data : List Char) : Car :=
  match data with
  | [] => Car.zero
  | c :: rest =>
    if c = '{' then
      if rest = ['}'] then Car.zero
      else
        match readMembers rest.length rest Car.zero with
        | some car => car
        | none => Car.zero
    else Car.zero

/-- The executable codec. -/
def goJson : JsonCodec :=
  { Marshal := fun car => String.mk (marshalCar car)
    Unmarshal := fun data => unmarshalCar data.data }

/-! ## The REST gateway (`Ex2_cardemo_api.go`)

The response body is the text written to the `http.ResponseWriter` so far.  The gateway
SDK is not part of the program: what each of its calls returns is an input (`Gateway`,
`Contract`).  The handlers are followed statement by statement; what the SDK would do
with the values it is handed after one of its own calls failed is not modelled. -/

/-- Text written to the `http.ResponseWriter` so far. -/
abbrev ResponseWriter := String

/-- The request as the handlers read it: `mux.Vars(r)` (a missing variable reads as the
empty string) and the bytes of `r.Body`. -/
structure Request where
  Vars : String → String
  Body : Bytes

/-- The two primitives of `gateway.Contract`: transaction name and arguments to result
bytes (possibly `nil`) and error. -/
structure Contract where
  EvaluateTransaction : String → List String → Option Bytes × GoError
  SubmitTransaction : String → List String → Option Bytes × GoError

/-- What the SDK and file-system calls made while connecting return. -/
structure Gateway where
  newFileSystemWalletErr : GoError
  walletExists : Bool
  readCert : Except String Bytes
  readKeyDir : Except String (List String)
  readKey : String → Except String Bytes
  walletPutErr : GoError
  connectErr : GoError
  getNetworkErr : GoError
  contract : Contract

/-- The text `fmt.Sprintf(format, operands...)` produces, for operands that print as the
given texts, on formats built from plain text, `%s`, `%v` and `%%`.  A verb with no
operand left prints as `%!v(MISSING)` and a trailing `%` as `%!(NOVERB)`.  Flags, widths
and argument indexes are not modelled: the formats written in the program have none, and
a ledger result used as a format (`fmt.Fprintf(w, string(result))`) is followed only as
far as it has none either. -/
def Sprintf : List Char → List String → List Char
  | [], _ => []
  | c :: rest, operands =>
    if c = '%' then
      match rest with
      | [] => "%!(NOVERB)".data
      | verb :: rest1 =>
        if verb = '%' then '%' :: Sprintf rest1 operands
        else
          match operands with
          | [] => "%!".data ++ (verb :: ("(MISSING)".data ++ Sprintf rest1 []))
          | operand :: operands1 => operand.data ++ Sprintf rest1 operands1
    else c :: Sprintf rest operands

/-- `fmt.Fprintf(w, format, operands...)`. -/
def Fprintf (w : ResponseWriter) (format : String) (operands : List String) : ResponseWriter :=
  w ++ String.mk (Sprintf format.data operands)

/-- UTF-8 encoding of one character. -/
def utf8Encode (c : Char) : List Nat :=
  let n := c.toNat
  if n < 128 then [n]
  else if n < 2048 then [192 + n / 64, 128 + n % 64]
  else if n < 65536 then [224 + n / 4096, 128 + n / 64 % 64, 128 + n % 64]
  else [240 + n / 262144, 128 + n / 4096 % 64, 128 + n / 64 % 64, 128 + n % 64]

/-- The bytes of a text. -/
def utf8Bytes : List Char → List Nat
  | [] => []
  | c :: cs => utf8Encode c ++ utf8Bytes cs

/-- The character for one six-bit group in the standard base64 alphabet. -/
def base64Char (n : Nat) : Char :=
  if n < 26 then Char.ofNat (65 + n)
  else if n < 52 then Char.ofNat (71 + n)
  else if n < 62 then Char.ofNat (n - 4)
  else if n = 62 then '+'
  else '/'

/-- Standard padded base64, the form `encoding/json` gives a `[]byte`. -/
def base64 : List Nat → List Char
  | [] => []
  | [a] => [base64Char (a / 4), base64Char (a % 4 * 16), '=', '=']
  | [a, b] => [base64Char (a / 4), base64Char (a % 4 * 16 + b / 16), base64Char (b % 16 * 4), '=']
  | a :: b :: c :: rest =>
    base64Char (a / 4) :: base64Char (a % 4 * 16 + b / 16) ::
      base64Char (b % 16 * 4 + c / 64) :: base64Char (c % 64) :: base64 rest

/-- `json.NewEncoder(w).Encode(result)` for a `[]byte`: `null` for a nil slice, the
base64 text in quotes otherwise, and a line feed. -/
def Encode (w : ResponseWriter) (result : Option Bytes) : ResponseWriter :=
  match result with
  | none => w ++ "null\n"
  | some b => w ++ String.mk ('"' :: (base64 (utf8Bytes b.data) ++ ['"', '\n']))

/-- The conversion `string(result)` of a `[]byte`; a nil slice gives the empty string. -/
def bytesToString (result : Option Bytes) : String :=
  match result with
  | none => ""
  | some b => b

/-- The conversion `string(i)` of an `int`: the text of the one code point `i`, or of
U+FFFD when `i` is not a valid code point. -/
def intToString (i : Int) : String :=
  if 0 ≤ i ∧ (i < 55296 ∨ (57343 < i ∧ i ≤ 1114111)) then String.singleton (Char.ofNat i.toNat)
  else String.singleton (Char.ofNat 65533)

/-- `populateWallet` (lines 93-135). -/
def populateWallet (gw : Gateway) : GoError :=
  match gw.readCert with
  | .error err => some err
  | .ok _ =>
    match gw.readKeyDir with
    | .error err => some err
    | .ok files =>
      if files.length ≠ 1 then some "keystore folder should have contain one file"
      else
        match gw.readKey (files.headD "") with
        | .error err => some err
        | .ok _ =>
          match gw.walletPutErr with
          | some err => some err
          | none => none

/-- `GetContract` (lines 50-91): the response text after its failure reports, and the
contract handle. -/
def GetContract (gw : Gateway) (w : ResponseWriter) : ResponseWriter × Contract :=
  let w := match gw.newFileSystemWalletErr with
    | some err => Fprintf w "Failed to create wallet: %s\n" [err]
    | none => w
  let w := if ¬ gw.walletExists then
      match populateWallet gw with
      | some err => Fprintf w "Failed to populate CarDemoappUser wallet contents: %s\n" [err]
      | none => w
    else w
  let w := match gw.connectErr with
    | some err => Fprintf w "Failed to connect to gateway: %s\n" [err]
    | none => w
  let w := match gw.getNetworkErr with
    | some err => Fprintf w "Failed to get network: %s\n" [err]
    | none => w
  (w, gw.contract)

/-- `returnAllCars` (lines 142-149). -/
def returnAllCars (gw : Gateway) (w : ResponseWriter) (_r : Request) : ResponseWriter :=
  let (w, contract) := GetContract gw w
  let (result, err) := contract.EvaluateTransaction "QueryAllCars" []
  let w := match err with
    | some e => Fprintf w "Failed to evaluate transaction: %s\n" [e]
    | none => w
  Encode w result

/-- `returnSingleCar` (lines 151-162). -/
def returnSingleCar (gw : Gateway) (w : ResponseWriter) (r : Request) : ResponseWriter :=
  let key := r.Vars "id"
  let (w, contract) := GetContract gw w
  let (result, err) := contract.EvaluateTransaction "QueryCar" [key]
  let w := match err with
    | some e => Fprintf w "Failed to evaluate QueryCar transaction: %s\n" [e]
    | none => w
  Encode w result

/-- `_createNewCar` (lines 164-180): the response text and the global `cars`. -/
def _createNewCar (J : JsonCodec) (gw : Gateway) (cars : List Car) (w : ResponseWriter)
    (r : Request) : ResponseWriter × List Car :=
  let reqBody := r.Body
  let newCar := J.Unmarshal reqBody
  let cars := cars ++ [newCar]
  let (w, contract) := GetContract gw w
  let (result, err) := contract.SubmitTransaction "createNewCar"
    [newCar.ManufacturerId, newCar.CarId, newCar.CarMake, newCar.CarModel, newCar.CarColor,
      newCar.ManufacturingDate, intToString newCar.ManufacturerPrice, "manufacturer"]
  let w := match err with
    | some e => Fprintf w "Failed to submit  createNewCar transaction: %s\n" [e]
    | none => w
  (Fprintf w (bytesToString result) [], cars)

/-- `_shipToDealer` (lines 182-198). -/
def _shipToDealer (J : JsonCodec) (gw : Gateway) (cars : List Car) (w : ResponseWriter)
    (r : Request) : ResponseWriter × List Car :=
  let reqBody := r.Body
  let newCar := J.Unmarshal reqBody
  let cars := cars ++ [newCar]
  let (w, contract) := GetContract gw w
  let (result, err) := contract.SubmitTransaction "ShipToDealer"
    [newCar.CarId, newCar.DealerId, intToString newCar.ShippingPrice, "manufacturer"]
  let w := match err with
    | some e => Fprintf w "Failed to submit  createNewCar transaction: %s\n" [e]
    | none => w
  (Fprintf w (bytesToString result) [], cars)

/-- `_receiveDelivery` (lines 200-218). -/
def _receiveDelivery (J : JsonCodec) (gw : Gateway) (cars : List Car) (w : ResponseWriter)
    (r : Request) : ResponseWriter × List Car :=
  let reqBody := r.Body
  let newCar := J.Unmarshal reqBody
  let cars := cars ++ [newCar]
  let (w, contract) := GetContract gw w
  let (result, err) := contract.SubmitTransaction "ReceiveDelivery" [newCar.CarId, "dealer"]
  let w := match err with
    | some e => Fprintf w "Failed to submit  ReceiveDelivery transaction: %s\n" [e]
    | none => w
  (Fprintf w (bytesToString result) [], cars)

/-- `_sellToCustomer` (lines 220-238). -/
def _sellToCustomer (J : JsonCodec) (gw : Gateway) (cars : List Car) (w : ResponseWriter)
    (r : Request) : ResponseWriter × List Car :=
  let reqBody := r.Body
  let newCar := J.Unmarshal reqBody
  let cars := cars ++ [newCar]
  let (w, contract) := GetContract gw w
  let (result, err) := contract.SubmitTransaction "SellToCustomer"
    [newCar.CarId, newCar.ConsumerId, intToString newCar.CustomerPrice, "dealer"]
  let w := match err with
    | some e => Fprintf w "Failed to submit  SellToCustomer transaction: %s\n" [e]
    | none => w
  (Fprintf w (bytesToString result) [], cars)

/-- A gateway whose connection succeeds at every step and whose two primitives both
return `response`. -/
def Gateway.answering (response : Option Bytes × GoError) : Gateway :=
  { newFileSystemWalletErr := none, walletExists := true, readCert := .ok "",
    readKeyDir := .ok [], readKey := fun _ => .ok "", walletPutErr := none,
    connectErr := none, getNetworkErr := none,
    contract := { EvaluateTransaction := fun _ _ => response,
                  SubmitTransaction := fun _ _ => response } }

/-! ## Auxiliary definitions for the statements -/

/-- Position of a status in the chain CREATED, SHIPPED, READY_FOR_SALE, SOLD; `none` for
any other text. -/
def statusRank (status : String) : Option Nat :=
  if status = "CREATED" then some 0
  else if status = "SHIPPED" then some 1
  else if status = "READY_FOR_SALE" then some 2
  else if status = "SOLD" then some 3
  else none

/-- One invocation of the contract: the operation's name with its arguments. -/
inductive Call where
  | InitLedger
  | createNewCar (manufacturerId carId carMake carModel carColor manufacturingDate : String)
      (manufacturerPrice : Int) (role : String)
  | QueryCar (carNumber : String)
  | QueryAllCars
  | ShipToDealer (carId dealerId : String) (shippingPrice : Int) (role : String)
  | ReceiveDelivery (carId role : String)
  | SellToCustomer (carId consumerId : String) (customerPrice : Int) (role : String)

/-- World state and error left by one direct call of a method of the contract.  The two
queries write nothing, so their world state is the one they were given.  The unexported
`createNewCar` is included here, as a method that code of the package can call; a
transaction submitted through the platform goes through `dispatch` below instead. -/
def invoke (J : JsonCodec) (env : Env) (w : WorldState) : Call → WorldState × GoError
  | .InitLedger => InitLedger J env w
  | .createNewCar manufacturerId carId carMake carModel carColor manufacturingDate
      manufacturerPrice role =>
    createNewCar J env w manufacturerId carId carMake carModel carColor manufacturingDate
      manufacturerPrice role
  | .QueryCar carNumber =>
    match QueryCar J env w carNumber with
    | .ok _ => (w, none)
    | .error err => (w, some err)
  | .QueryAllCars =>
    match QueryAllCars J env w with
    | .ok _ => (w, none)
    | .error err => (w, some err)
  | .ShipToDealer carId dealerId shippingPrice role =>
    ShipToDealer J env w carId dealerId shippingPrice role
  | .ReceiveDelivery carId role => ReceiveDelivery J env w carId role
  | .SellToCustomer carId consumerId customerPrice role =>
    SellToCustomer J env w carId consumerId customerPrice role

/-- World state after a finite sequence of invocations, each in its own environment,
whether or not they succeed. -/
def run (J : JsonCodec) : List (Env × Call) → WorldState → WorldState
  | [], w => w
  | (env, call) :: rest, w => run J rest (invoke J env w call).1

/-- Rank of the status of the record held under `k`, when `k` holds a record whose
status is one of the four. -/
def rankAt (J : JsonCodec) (w : WorldState) (k : String) : Option Nat :=
  match w.get k with
  | some b => statusRank (J.Unmarshal b).Status
  | none => none

/-- An environment in which no stub call fails. -/
def Env.ok (now : String) : Env :=
  { getStateErr := fun _ => none, putStateErr := fun _ _ => none, rangeErr := none,
    nextErr := fun _ => none, now := now }


/-- The ledger after `InitLedger` ran on the empty world state with every write
succeeding; it holds the four sample cars under CAR0..CAR3. -/
def seededWorld : WorldState := (InitLedger goJson (Env.ok "t0") WorldState.empty).1

/-- The `i`-th sample car of `InitLedger`. -/
def sampleCar (i : Nat) : Car := sampleCars.getD i Car.zero

/-- The seeded ledger after the manufacturer created the car "M105". -/
def createdWorld : WorldState :=
  (createNewCar goJson (Env.ok "t1") seededWorld "MOrg03" "M105" "2022" "MOrg03CM101" "White"
    "t0" 450000 "manufacturer").1

/-- A gateway whose connection succeeds at every step and whose submit primitive reports
back, as its error text, the argument it was handed at position `i`. -/
def Gateway.echoing (i : Nat) : Gateway :=
  { Gateway.answering (none, none) with
    contract := { EvaluateTransaction := fun _ _ => (none, none),
                  SubmitTransaction := fun _ args => (none, some (args.getD i "")) } }

/-- The function name under which a call is submitted. -/
def Call.name : Call → String
  | .InitLedger => "InitLedger"
  | .createNewCar _ _ _ _ _ _ _ _ => "createNewCar"
  | .QueryCar _ => "QueryCar"
  | .QueryAllCars => "QueryAllCars"
  | .ShipToDealer _ _ _ _ => "ShipToDealer"
  | .ReceiveDelivery _ _ => "ReceiveDelivery"
  | .SellToCustomer _ _ _ _ => "SellToCustomer"

/-- Go's export rule on the ASCII method names of this program: a name is exported when
it starts with an upper-case letter. -/
def isExported (name : String) : Bool :=
  match name.data with
  | [] => false
  | c :: _ => decide (65 ≤ c.toNat ∧ c.toNat ≤ 90)

/-- A transaction submitted to the chaincode that `main` builds with
`contractapi.NewChaincode(new(CarChainCode))` (line 197), its arguments already converted
to the parameter types.  The library registers the exported methods of the contract and
no others; a function name it did not register is refused before any method runs, so
nothing is written. -/
def dispatch (J : JsonCodec) (env : Env) (w : WorldState) (call : Call) :
    WorldState × GoError :=
  if isExported call.name then invoke J env w call
  else (w, some ("Function " ++ call.name ++ " not found in contract CarChainCode"))

/-! # Theorems -/

set_option maxRecDepth 100000

/-! ## Facts about the world state -/

theorem getEntry_putEntry_self (k : String) (v : Bytes) :
    ∀ l : List (String × Bytes), getEntry k (putEntry k v l) = some v
  | [] => by simp [putEntry, getEntry]
  | (k', v') :: rest => by
    by_cases hk : k' = k
    · simp [putEntry, getEntry, hk]
    · simp [putEntry, getEntry, hk, getEntry_putEntry_self k v rest]

theorem getEntry_putEntry_ne (k k2 : String) (v : Bytes) (hne : k2 ≠ k) :
    ∀ l : List (String × Bytes), getEntry k2 (putEntry k v l) = getEntry k2 l
  | [] => by simp [putEntry, getEntry, hne.symm]
  | (k', v') :: rest => by
    by_cases hk : k' = k
    · subst hk
      simp [putEntry, getEntry, hne.symm]
    · by_cases hk2 : k' = k2
      · subst hk2
        simp [putEntry, getEntry, hk]
      · simp [putEntry, getEntry, hk, hk2, getEntry_putEntry_ne k k2 v hne rest]

theorem getEntry_eq_none_iff (k : String) :
    ∀ l : List (String × Bytes), getEntry k l = none ↔ k ∉ l.map Prod.fst
  | [] => by simp [getEntry]
  | (k', v') :: rest => by
    by_cases hk : k' = k
    · simp [getEntry, hk]
    · have hk' : ¬ k = k' := fun e => hk e.symm
      simp [getEntry, hk, hk', getEntry_eq_none_iff k rest]

theorem WorldState.get_put_self (w : WorldState) (k : String) (v : Bytes) :
    (w.put k v).get k = some v :=
  getEntry_putEntry_self k v w.entries

theorem WorldState.get_put_ne (w : WorldState) (k k2 : String) (v : Bytes) (hne : k2 ≠ k) :
    (w.put k v).get k2 = w.get k2 :=
  getEntry_putEntry_ne k k2 v hne w.entries

theorem WorldState.mem_keys_iff (w : WorldState) (k : String) :
    k ∈ w.keys ↔ w.get k ≠ none := by
  unfold WorldState.keys WorldState.get
  rw [Ne, getEntry_eq_none_iff]
  exact not_not.symm

theorem WorldState.mem_keys_put (w : WorldState) (k k2 : String) (v : Bytes)
    (h : k2 ∈ w.keys) : k2 ∈ (w.put k v).keys := by
  rw [WorldState.mem_keys_iff] at h ⊢
  by_cases hk : k2 = k
  · subst hk; rw [WorldState.get_put_self]; simp
  · rw [WorldState.get_put_ne w k k2 v hk]; exact h

theorem WorldState.mem_keys_put_self (w : WorldState) (k : String) (v : Bytes) :
    k ∈ (w.put k v).keys := by
  rw [WorldState.mem_keys_iff, WorldState.get_put_self]; simp

/-! ## Facts about the stub and the operations -/

theorem PutState_ok (env : Env) (w w2 : WorldState) (k : String) (v : Bytes)
    (h : PutState env w k v = (w2, none)) : w2 = w.put k v := by
  unfold PutState at h
  cases he : env.putStateErr k v with
  | none => rw [he] at h; exact (Prod.mk.inj h).1.symm
  | some e => rw [he] at h; exact absurd (Prod.mk.inj h).2 (by simp)

theorem PutState_keys (env : Env) (w : WorldState) (k k2 : String) (v : Bytes)
    (h : k2 ∈ w.keys) : k2 ∈ (PutState env w k v).1.keys := by
  unfold PutState
  cases env.putStateErr k v with
  | none => exact WorldState.mem_keys_put w k k2 v h
  | some e => exact h

theorem PutState_noFault (env : Env) (w : WorldState) (k : String) (v : Bytes)
    (h : env.putStateErr k v = none) : PutState env w k v = (w.put k v, none) := by
  unfold PutState; rw [h]

theorem QueryCar_present (J : JsonCodec) (env : Env) (w : WorldState) (k : String) (b : Bytes)
    (hread : env.getStateErr k = none) (hb : w.get k = some b) :
    QueryCar J env w k = .ok (J.Unmarshal b) := by
  unfold QueryCar GetState; rw [hread]; simp [hb]

theorem QueryCar_absent (J : JsonCodec) (env : Env) (w : WorldState) (k : String)
    (hread : env.getStateErr k = none) (hb : w.get k = none) :
    QueryCar J env w k = .error (k ++ " does not exist") := by
  unfold QueryCar GetState; rw [hread]; simp [hb]

/-- A successful `QueryCar` read the key and found bytes there. -/
theorem QueryCar_ok_inv (J : JsonCodec) (env : Env) (w : WorldState) (k : String) (c : Car)
    (h : QueryCar J env w k = .ok c) : ∃ b, w.get k = some b ∧ c = J.Unmarshal b := by
  unfold QueryCar GetState at h
  cases he : env.getStateErr k with
  | some e => rw [he] at h; simp at h
  | none =>
    rw [he] at h
    cases hb : w.get k with
    | none => rw [hb] at h; simp at h
    | some b =>
      rw [hb] at h
      simp at h
      exact ⟨b, rfl, h.symm⟩


/-! ## The executable codec decodes what it encodes -/

theorem hexVal_digitChar (d : Nat) (h : d < 16) : hexVal (digitChar d) = some d := by
  interval_cases d <;> decide

theorem readString_quote (rest : List Char) : readString ('"' :: rest) = some ([], rest) := by
  rw [readString.eq_def]; simp

theorem readString_letter (e ch : Char) (s rest r : List Char) (he : e ≠ 'u')
    (hu : unescape e = some ch) (ih : readString rest = some (s, r)) :
    readString ('\\' :: e :: rest) = some (ch :: s, r) := by
  rw [readString.eq_def]; simp [he, hu, ih]

theorem readString_hex (h1 h2 h3 h4 : Char) (a b c d : Nat) (s rest r : List Char)
    (e1 : hexVal h1 = some a) (e2 : hexVal h2 = some b) (e3 : hexVal h3 = some c)
    (e4 : hexVal h4 = some d) (ih : readString rest = some (s, r)) :
    readString ('\\' :: 'u' :: h1 :: h2 :: h3 :: h4 :: rest) =
      some (Char.ofNat (a * 4096 + b * 256 + c * 16 + d) :: s, r) := by
  rw [readString.eq_def]; simp [e1, e2, e3, e4, ih]

theorem readString_plain (c : Char) (s rest r : List Char) (h1 : c ≠ '"') (h2 : c ≠ '\\')
    (h3 : ¬ c.toNat < 32) (ih : readString rest = some (s, r)) :
    readString (c :: rest) = some (c :: s, r) := by
  rw [readString.eq_def]; simp [h1, h2, h3, ih]

theorem readString_escape : ∀ (s rest : List Char),
    readString (escape s ++ '"' :: rest) = some (s, rest)
  | [], rest => by simp [escape, readString_quote]
  | c :: cs, rest => by
    have ih := readString_escape cs rest
    unfold escape escapeChar
    split_ifs with h1 h2 h3 h4 h5 h6
    · subst h1; exact readString_letter _ _ _ _ _ (by decide) (by decide) ih
    · subst h2; exact readString_letter _ _ _ _ _ (by decide) (by decide) ih
    · subst h3; exact readString_letter _ _ _ _ _ (by decide) (by decide) ih
    · subst h4; exact readString_letter _ _ _ _ _ (by decide) (by decide) ih
    · subst h5; exact readString_letter _ _ _ _ _ (by decide) (by decide) ih
    · have hlt : c.toNat < 65536 := by
        rcases h6 with h | h | h | h | h | h
        · omega
        · subst h; decide
        · subst h; decide
        · subst h; decide
        · omega
        · omega
      have e1 := hexVal_digitChar (c.toNat / 4096 % 16) (Nat.mod_lt _ (by norm_num))
      have e2 := hexVal_digitChar (c.toNat / 256 % 16) (Nat.mod_lt _ (by norm_num))
      have e3 := hexVal_digitChar (c.toNat / 16 % 16) (Nat.mod_lt _ (by norm_num))
      have e4 := hexVal_digitChar (c.toNat % 16) (Nat.mod_lt _ (by norm_num))
      have hsum : c.toNat / 4096 % 16 * 4096 + c.toNat / 256 % 16 * 256 + c.toNat / 16 % 16 * 16
          + c.toNat % 16 = c.toNat := by omega
      have := readString_hex _ _ _ _ _ _ _ _ _ _ _ e1 e2 e3 e4 ih
      rw [hsum, Char.ofNat_toNat] at this
      exact this
    · have h7 : ¬ c.toNat < 32 := fun h => h6 (Or.inl h)
      exact readString_plain c _ _ _ h1 h2 h7 ih



theorem digitChar_isDigit (d : Nat) (h : d < 10) :
    isDigit (digitChar d) = true ∧ (digitChar d).toNat - 48 = d := by
  interval_cases d <;> decide

theorem readDigits_natDigits : ∀ (fuel n : Nat) (rest : List Char), n < 10 ^ fuel →
    readDigits (natDigits fuel n ++ rest) 0 = readDigits rest n
  | 0, n, rest, h => by
    have : n = 0 := by simpa using h
    subst this
    simp [natDigits]
  | fuel + 1, n, rest, h => by
    by_cases hn : n < 10
    · have hd := digitChar_isDigit n hn
      simp [natDigits, hn, readDigits, hd.1, hd.2]
    · have hlt : n / 10 < 10 ^ fuel := by
        rw [Nat.div_lt_iff_lt_mul (by norm_num)]
        rw [pow_succ] at h
        exact h
      have hd := digitChar_isDigit (n % 10) (Nat.mod_lt _ (by norm_num))
      have ih := readDigits_natDigits fuel (n / 10) (digitChar (n % 10) :: rest) hlt
      simp only [natDigits, hn, if_false, List.append_assoc, List.singleton_append]
      rw [ih]
      simp only [readDigits, hd.1, if_true, hd.2]
      congr 1
      omega

theorem natDigits_head : ∀ (fuel n : Nat), ∃ d tl, natDigits (fuel + 1) n = d :: tl ∧
    isDigit d = true
  | 0, n => by
    by_cases hn : n < 10
    · exact ⟨digitChar n, [], by simp [natDigits, hn], (digitChar_isDigit n hn).1⟩
    · exact ⟨digitChar (n % 10), [], by simp [natDigits, hn],
        (digitChar_isDigit (n % 10) (Nat.mod_lt _ (by norm_num))).1⟩
  | fuel + 1, n => by
    by_cases hn : n < 10
    · exact ⟨digitChar n, [], by simp [natDigits, hn], (digitChar_isDigit n hn).1⟩
    · obtain ⟨d, tl, h1, h2⟩ := natDigits_head fuel (n / 10)
      refine ⟨d, tl ++ [digitChar (n % 10)], ?_, h2⟩
      rw [natDigits]
      simp only [hn, if_false]
      rw [h1]
      rfl


theorem isDigit_ne (d : Char) (h : isDigit d = true) : d ≠ '-' ∧ d ≠ '"' := by
  constructor <;> (intro e; subst e; revert h; decide)

theorem readInt_formatInt (i : Int) (sep : Char) (rest : List Char)
    (hsep : isDigit sep = false) :
    readInt (formatInt i ++ sep :: rest) = some (i, sep :: rest) := by
  have hpow : i.natAbs < 10 ^ (i.natAbs + 1) :=
    lt_trans (Nat.lt_pow_self (by norm_num) _) (Nat.pow_lt_pow_right (by norm_num) (by omega))
  have hrd := readDigits_natDigits (i.natAbs + 1) i.natAbs (sep :: rest) hpow
  have hstop : readDigits (sep :: rest) i.natAbs = (i.natAbs, sep :: rest) := by
    simp [readDigits, hsep]
  obtain ⟨d, tl, hd, hdig⟩ := natDigits_head i.natAbs i.natAbs
  unfold formatInt
  split_ifs with hneg
  · have hval : -((i.natAbs : Nat) : Int) = i := by omega
    have : readInt ('-' :: (natDigits (i.natAbs + 1) i.natAbs ++ sep :: rest)) =
        some (-((readDigits (natDigits (i.natAbs + 1) i.natAbs ++ sep :: rest) 0).1 : Int),
          (readDigits (natDigits (i.natAbs + 1) i.natAbs ++ sep :: rest) 0).2) := by
      rw [hd]
      simp [readInt, hdig]
    rw [List.cons_append, this, hrd, hstop, hval]
  · have hval : ((i.natAbs : Nat) : Int) = i := by omega
    have : readInt (natDigits (i.natAbs + 1) i.natAbs ++ sep :: rest) =
        some (((readDigits (natDigits (i.natAbs + 1) i.natAbs ++ sep :: rest) 0).1 : Int),
          (readDigits (natDigits (i.natAbs + 1) i.natAbs ++ sep :: rest) 0).2) := by
      rw [hd]
      simp [readInt, hdig, (isDigit_ne d hdig).1]
    rw [this, hrd, hstop, hval]

theorem readValue_quote (s : String) (rest : List Char) :
    readValue (quote s ++ rest) = some (JValue.str s, rest) := by
  simp [quote, readValue, readString_escape]

theorem readValue_formatInt (i : Int) (sep : Char) (rest : List Char)
    (hsep : isDigit sep = false) :
    readValue (formatInt i ++ sep :: rest) = some (JValue.num i, sep :: rest) := by
  have h := readInt_formatInt i sep rest hsep
  obtain ⟨d, tl, hd, hdig⟩ := natDigits_head i.natAbs i.natAbs
  have hshape : ∃ c tl2, formatInt i = c :: tl2 ∧ c ≠ '"' := by
    unfold formatInt
    split_ifs
    · exact ⟨'-', _, rfl, by decide⟩
    · exact ⟨d, tl, hd, (isDigit_ne d hdig).2⟩
  obtain ⟨c, tl2, hc, hq⟩ := hshape
  rw [hc] at h ⊢
  simp only [List.cons_append] at h ⊢
  simp [readValue, hq, h]

/-- Reading one member that is followed by a comma. -/
theorem readMembers_more (fuel : Nat) (name : String) (value rest : List Char) (v : JValue)
    (car : Car) (hname : escape name.data = name.data)
    (hv : readValue (value ++ ',' :: rest) = some (v, ',' :: rest)) :
    readMembers (fuel + 1) (member name value ++ ',' :: rest) car =
      readMembers fuel rest (setField car name v) := by
  have hs := readString_escape name.data (':' :: (value ++ ',' :: rest))
  rw [hname] at hs
  simp [member, readMembers, hs, hv]

/-- Reading the last member, followed by the closing brace. -/
theorem readMembers_last (fuel : Nat) (name : String) (value : List Char) (v : JValue)
    (car : Car) (hname : escape name.data = name.data)
    (hv : readValue (value ++ ['}']) = some (v, ['}'])) :
    readMembers (fuel + 1) (member name value ++ ['}']) car = some (setField car name v) := by
  have hs := readString_escape name.data (':' :: (value ++ ['}']))
  rw [hname] at hs
  simp [member, readMembers, hs, hv]


theorem readMembers_marshal (fuel : Nat) (c : Car) :
    readMembers (fuel + 15) (marshalCar c).tail Car.zero = some c := by
  show readMembers (fuel + 15)
      (member "manufacturerId" (quote c.ManufacturerId) ++ (',' ::
      (member "carId" (quote c.CarId) ++ (',' ::
      (member "dealerId" (quote c.DealerId) ++ (',' ::
      (member "consumerId" (quote c.ConsumerId) ++ (',' ::
      (member "carMake" (quote c.CarMake) ++ (',' ::
      (member "carModel" (quote c.CarModel) ++ (',' ::
      (member "carColor" (quote c.CarColor) ++ (',' ::
      (member "status" (quote c.Status) ++ (',' ::
      (member "manufacturingDate" (quote c.ManufacturingDate) ++ (',' ::
      (member "shippingDate" (quote c.ShippingDate) ++ (',' ::
      (member "deliveryDate" (quote c.DeliveryDate) ++ (',' ::
      (member "soldOnDate" (quote c.SoldOnDate) ++ (',' ::
      (member "manufacturerPrice" (formatInt c.ManufacturerPrice) ++ (',' ::
      (member "shippingPrice" (formatInt c.ShippingPrice) ++ (',' ::
      (member "customerPrice" (formatInt c.CustomerPrice) ++
        ['}']))))))))))))))))))))))))))))) Car.zero = some c
  rw [readMembers_more (fuel + 14) _ _ _ _ _ (by decide) (readValue_quote _ _)]
  rw [readMembers_more (fuel + 13) _ _ _ _ _ (by decide) (readValue_quote _ _)]
  rw [readMembers_more (fuel + 12) _ _ _ _ _ (by decide) (readValue_quote _ _)]
  rw [readMembers_more (fuel + 11) _ _ _ _ _ (by decide) (readValue_quote _ _)]
  rw [readMembers_more (fuel + 10) _ _ _ _ _ (by decide) (readValue_quote _ _)]
  rw [readMembers_more (fuel + 9) _ _ _ _ _ (by decide) (readValue_quote _ _)]
  rw [readMembers_more (fuel + 8) _ _ _ _ _ (by decide) (readValue_quote _ _)]
  rw [readMembers_more (fuel + 7) _ _ _ _ _ (by decide) (readValue_quote _ _)]
  rw [readMembers_more (fuel + 6) _ _ _ _ _ (by decide) (readValue_quote _ _)]
  rw [readMembers_more (fuel + 5) _ _ _ _ _ (by decide) (readValue_quote _ _)]
  rw [readMembers_more (fuel + 4) _ _ _ _ _ (by decide) (readValue_quote _ _)]
  rw [readMembers_more (fuel + 3) _ _ _ _ _ (by decide) (readValue_quote _ _)]
  rw [readMembers_more (fuel + 2) _ _ _ _ _ (by decide)
    (readValue_formatInt _ _ _ (by decide))]
  rw [readMembers_more (fuel + 1) _ _ _ _ _ (by decide)
    (readValue_formatInt _ _ _ (by decide))]
  rw [readMembers_last fuel _ _ _ _ (by decide) (readValue_formatInt _ _ _ (by decide))]
  cases c
  simp [setField, Car.zero]

theorem marshalCar_tail_length (c : Car) : ∃ fuel, (marshalCar c).tail.length = fuel + 15 := by
  refine ⟨(marshalCar c).tail.length - 15, ?_⟩
  have : 15 ≤ (marshalCar c).tail.length := by
    simp only [marshalCar, List.tail_cons, List.length_append, List.length_cons, List.length_nil]
    omega
  omega

theorem marshalCar_tail_ne (c : Car) : (marshalCar c).tail ≠ ['}'] := by
  intro h
  have h2 := congrArg List.head? h
  simp only [marshalCar, List.tail_cons, member, List.cons_append, List.head?_cons] at h2
  revert h2
  decide

/-- The executable codec decodes what it encodes. -/
theorem goJson_roundTrip : goJson.RoundTrip := by
  intro c
  show unmarshalCar (marshalCar c) = c
  obtain ⟨fuel, hf⟩ := marshalCar_tail_length c
  have hshape : marshalCar c = '{' :: (marshalCar c).tail := rfl
  rw [hshape]
  simp only [unmarshalCar]
  rw [if_pos trivial, if_neg (marshalCar_tail_ne c), hf, readMembers_marshal]

/-! ## Role gating -/

/-- C2. Role gating: in every world state and for all other arguments, `createNewCar` and
`ShipToDealer` called with a role other than "manufacturer", and `ReceiveDelivery` and
`SellToCustomer` called with a role other than "dealer", return their authorization error
and leave the world state as it was. -/
theorem role_gating (J : JsonCodec) (env : Env) (w : WorldState) (role : String) :
    (role ≠ "manufacturer" →
      (∀ (manufacturerId carId carMake carModel carColor manufacturingDate : String)
          (manufacturerPrice : Int),
        createNewCar J env w manufacturerId carId carMake carModel carColor manufacturingDate
            manufacturerPrice role =
          (w, some "Failed to put new Car to world state due to unauthorized user")) ∧
      (∀ (carId dealerId : String) (shippingPrice : Int),
        ShipToDealer J env w carId dealerId shippingPrice role =
          (w, some "Failed to put to world state due to unauthorized user"))) ∧
    (role ≠ "dealer" →
      (∀ carId : String,
        ReceiveDelivery J env w carId role =
          (w, some "Failed to put to world state due to unauthorized user")) ∧
      (∀ (carId consumerId : String) (customerPrice : Int),
        SellToCustomer J env w carId consumerId customerPrice role =
          (w, some "Failed to put to world state due to unauthorized user"))) := by
  refine ⟨fun h => ⟨?_, ?_⟩, fun h => ⟨?_, ?_⟩⟩
  · intros; simp [createNewCar, h]
  · intros; simp [ShipToDealer, h]
  · intros; simp [ReceiveDelivery, h]
  · intros; simp [SellToCustomer, h]

/-- In the seeded ledger a caller presenting the role "customer" is refused by all four
operations, also on an existing car. -/
theorem role_gating_witness :
    "customer" ≠ "manufacturer" ∧ "customer" ≠ "dealer" ∧
    createNewCar goJson (Env.ok "t1") seededWorld "MOrg03" "M105" "2022" "MOrg03CM101" "White"
        "t0" 450000 "customer" =
      (seededWorld, some "Failed to put new Car to world state due to unauthorized user") ∧
    ShipToDealer goJson (Env.ok "t1") seededWorld "CAR0" "D101" 12000 "customer" =
      (seededWorld, some "Failed to put to world state due to unauthorized user") ∧
    ReceiveDelivery goJson (Env.ok "t1") seededWorld "CAR0" "customer" =
      (seededWorld, some "Failed to put to world state due to unauthorized user") ∧
    SellToCustomer goJson (Env.ok "t1") seededWorld "CAR0" "CUST103" 950000 "customer" =
      (seededWorld, some "Failed to put to world state due to unauthorized user") :=
  ⟨by decide, by decide,
    ((role_gating goJson (Env.ok "t1") seededWorld "customer").1 (by decide)).1 _ _ _ _ _ _ _,
    ((role_gating goJson (Env.ok "t1") seededWorld "customer").1 (by decide)).2 _ _ _,
    ((role_gating goJson (Env.ok "t1") seededWorld "customer").2 (by decide)).1 _,
    ((role_gating goJson (Env.ok "t1") seededWorld "customer").2 (by decide)).2 _ _ _⟩

/-! ## Queries by key -/

/-- C3. When the read of key `k` succeeds, `QueryCar k` returns the error
"<k> does not exist" (and no car) if the world state holds no value under `k`, and returns
the car decoded from the stored bytes, with no error, if it does; so it fails exactly when
the key is absent. -/
theorem QueryCar_not_found_iff_absent (J : JsonCodec) (env : Env) (w : WorldState) (k : String)
    (hread : env.getStateErr k = none) :
    (w.get k = none → QueryCar J env w k = .error (k ++ " does not exist")) ∧
    (∀ b, w.get k = some b → QueryCar J env w k = .ok (J.Unmarshal b)) ∧
    ((∃ err, QueryCar J env w k = .error err) ↔ w.get k = none) := by
  refine ⟨QueryCar_absent J env w k hread, fun b hb => QueryCar_present J env w k b hread hb, ?_⟩
  constructor
  · rintro ⟨err, herr⟩
    cases hb : w.get k with
    | none => rfl
    | some b => rw [QueryCar_present J env w k b hread hb] at herr; simp at herr
  · intro hb
    exact ⟨_, QueryCar_absent J env w k hread hb⟩

/-- In the seeded ledger, whose keys are CAR0..CAR3, the query of "M105" reports that it
does not exist and the query of "CAR1" returns the second sample car. -/
theorem QueryCar_not_found_iff_absent_witness :
    (Env.ok "t1").getStateErr "M105" = none ∧ seededWorld.get "M105" = none ∧
    QueryCar goJson (Env.ok "t1") seededWorld "M105" = .error "M105 does not exist" ∧
    (∃ b, seededWorld.get "CAR1" = some b ∧
      QueryCar goJson (Env.ok "t1") seededWorld "CAR1" = .ok (goJson.Unmarshal b)) :=
  ⟨rfl, by decide,
    (QueryCar_not_found_iff_absent goJson (Env.ok "t1") seededWorld "M105" rfl).1 (by decide),
    ⟨_, rfl, (QueryCar_not_found_iff_absent goJson (Env.ok "t1") seededWorld "CAR1" rfl).2.1 _
      rfl⟩⟩

/-! ## Transitions on a missing car -/

/-- C9. When no value is stored under `carId`, the read succeeds and the role matches,
`ShipToDealer`, `ReceiveDelivery` and `SellToCustomer` each return the error
"<carId> does not exist" and leave the world state as it was; no record appears under
`carId`. -/
theorem transition_on_missing_car (J : JsonCodec) (env : Env) (w : WorldState) (carId : String)
    (habsent : w.get carId = none) (hread : env.getStateErr carId = none) :
    (∀ (dealerId : String) (shippingPrice : Int),
      ShipToDealer J env w carId dealerId shippingPrice "manufacturer" =
        (w, some (carId ++ " does not exist"))) ∧
    ReceiveDelivery J env w carId "dealer" = (w, some (carId ++ " does not exist")) ∧
    (∀ (consumerId : String) (customerPrice : Int),
      SellToCustomer J env w carId consumerId customerPrice "dealer" =
        (w, some (carId ++ " does not exist"))) := by
  have hq := QueryCar_absent J env w carId hread habsent
  refine ⟨?_, ?_, ?_⟩
  · intros; simp [ShipToDealer, hq]
  · simp [ReceiveDelivery, hq]
  · intros; simp [SellToCustomer, hq]

/-- In the seeded ledger the three transitions on "M105", which was never created, fail
with "M105 does not exist" and change nothing. -/
theorem transition_on_missing_car_witness :
    seededWorld.get "M105" = none ∧ (Env.ok "t1").getStateErr "M105" = none ∧
    ShipToDealer goJson (Env.ok "t1") seededWorld "M105" "D101" 12000 "manufacturer" =
      (seededWorld, some "M105 does not exist") ∧
    ReceiveDelivery goJson (Env.ok "t1") seededWorld "M105" "dealer" =
      (seededWorld, some "M105 does not exist") ∧
    SellToCustomer goJson (Env.ok "t1") seededWorld "M105" "CUST103" 950000 "dealer" =
      (seededWorld, some "M105 does not exist") :=
  ⟨by decide, rfl,
    (transition_on_missing_car goJson (Env.ok "t1") seededWorld "M105" (by decide) rfl).1 _ _,
    (transition_on_missing_car goJson (Env.ok "t1") seededWorld "M105" (by decide) rfl).2.1,
    (transition_on_missing_car goJson (Env.ok "t1") seededWorld "M105" (by decide) rfl).2.2 _ _⟩

/-! ## What a transition writes -/

theorem ShipToDealer_ok_inv (J : JsonCodec) (env : Env) (w w2 : WorldState)
    (carId dealerId : String) (shippingPrice : Int) (role : String)
    (h : ShipToDealer J env w carId dealerId shippingPrice role = (w2, none)) :
    ∃ b, w.get carId = some b ∧
      w2 = w.put carId (J.Marshal { J.Unmarshal b with
        DealerId := dealerId, Status := "SHIPPED", ShippingDate := env.now,
        ShippingPrice := shippingPrice }) := by
  unfold ShipToDealer at h
  split_ifs at h with hrole
  · exact absurd (Prod.mk.inj h).2 (by simp)
  · cases hq : QueryCar J env w carId with
    | error err => rw [hq] at h; exact absurd (Prod.mk.inj h).2 (by simp)
    | ok car =>
      rw [hq] at h
      obtain ⟨b, hb, hc⟩ := QueryCar_ok_inv J env w carId car hq
      subst hc
      exact ⟨b, hb, PutState_ok env w w2 carId _ h⟩

theorem ReceiveDelivery_ok_inv (J : JsonCodec) (env : Env) (w w2 : WorldState)
    (carId role : String) (h : ReceiveDelivery J env w carId role = (w2, none)) :
    ∃ b, w.get carId = some b ∧
      w2 = w.put carId (J.Marshal { J.Unmarshal b with
        Status := "READY_FOR_SALE", DeliveryDate := env.now }) := by
  unfold ReceiveDelivery at h
  split_ifs at h with hrole
  · exact absurd (Prod.mk.inj h).2 (by simp)
  · cases hq : QueryCar J env w carId with
    | error err => rw [hq] at h; exact absurd (Prod.mk.inj h).2 (by simp)
    | ok car =>
      rw [hq] at h
      obtain ⟨b, hb, hc⟩ := QueryCar_ok_inv J env w carId car hq
      subst hc
      exact ⟨b, hb, PutState_ok env w w2 carId _ h⟩

theorem SellToCustomer_ok_inv (J : JsonCodec) (env : Env) (w w2 : WorldState)
    (carId consumerId : String) (customerPrice : Int) (role : String)
    (h : SellToCustomer J env w carId consumerId customerPrice role = (w2, none)) :
    ∃ b, w.get carId = some b ∧
      w2 = w.put carId (J.Marshal { J.Unmarshal b with
        Status := "SOLD", ConsumerId := consumerId, SoldOnDate := env.now,
        CustomerPrice := customerPrice }) := by
  unfold SellToCustomer at h
  split_ifs at h with hrole
  · exact absurd (Prod.mk.inj h).2 (by simp)
  · cases hq : QueryCar J env w carId with
    | error err => rw [hq] at h; exact absurd (Prod.mk.inj h).2 (by simp)
    | ok car =>
      rw [hq] at h
      obtain ⟨b, hb, hc⟩ := QueryCar_ok_inv J env w carId car hq
      subst hc
      exact ⟨b, hb, PutState_ok env w w2 carId _ h⟩

theorem createNewCar_ok_inv (J : JsonCodec) (env : Env) (w w2 : WorldState)
    (manufacturerId carId carMake carModel carColor manufacturingDate : String)
    (manufacturerPrice : Int) (role : String)
    (h : createNewCar J env w manufacturerId carId carMake carModel carColor manufacturingDate
      manufacturerPrice role = (w2, none)) :
    w2 = w.put carId (J.Marshal { Car.zero with
      ManufacturerId := manufacturerId, CarId := carId, CarMake := carMake,
      CarModel := carModel, CarColor := carColor, Status := "CREATED",
      ManufacturingDate := manufacturingDate, ManufacturerPrice := manufacturerPrice }) := by
  unfold createNewCar at h
  split_ifs at h with hrole
  · exact absurd (Prod.mk.inj h).2 (by simp)
  · exact PutState_ok env w w2 carId _ h

/-- C6. Each transition rewrites only its own fields of the one record it reads.  When
`carId` holds bytes `b`, decoding to the car `c`, a successful `ShipToDealer` leaves under
`carId` the encoding of `c` with `DealerId`, `Status` ("SHIPPED"), `ShippingDate` and
`ShippingPrice` replaced; `ReceiveDelivery` the encoding of `c` with `Status`
("READY_FOR_SALE") and `DeliveryDate` replaced; `SellToCustomer` the encoding of `c` with
`Status` ("SOLD"), `ConsumerId`, `SoldOnDate` and `CustomerPrice` replaced.  That encoding
decodes to the record so updated, every other field being the one of `c`, and the value
under every other key is the one it was. -/
theorem transition_frame (J : JsonCodec) (hJ : J.RoundTrip) (env : Env) (w : WorldState)
    (carId : String) (b : Bytes) (hb : w.get carId = some b) :
    (∀ (dealerId : String) (shippingPrice : Int) (w2 : WorldState),
      ShipToDealer J env w carId dealerId shippingPrice "manufacturer" = (w2, none) →
      ∃ v, w2.get carId = some v ∧
        v = J.Marshal { J.Unmarshal b with
          DealerId := dealerId, Status := "SHIPPED", ShippingDate := env.now,
          ShippingPrice := shippingPrice } ∧
        J.Unmarshal v = { J.Unmarshal b with
          DealerId := dealerId, Status := "SHIPPED", ShippingDate := env.now,
          ShippingPrice := shippingPrice } ∧
        ∀ k, k ≠ carId → w2.get k = w.get k) ∧
    (∀ w2 : WorldState,
      ReceiveDelivery J env w carId "dealer" = (w2, none) →
      ∃ v, w2.get carId = some v ∧
        v = J.Marshal { J.Unmarshal b with
          Status := "READY_FOR_SALE", DeliveryDate := env.now } ∧
        J.Unmarshal v = { J.Unmarshal b with
          Status := "READY_FOR_SALE", DeliveryDate := env.now } ∧
        ∀ k, k ≠ carId → w2.get k = w.get k) ∧
    (∀ (consumerId : String) (customerPrice : Int) (w2 : WorldState),
      SellToCustomer J env w carId consumerId customerPrice "dealer" = (w2, none) →
      ∃ v, w2.get carId = some v ∧
        v = J.Marshal { J.Unmarshal b with
          Status := "SOLD", ConsumerId := consumerId, SoldOnDate := env.now,
          CustomerPrice := customerPrice } ∧
        J.Unmarshal v = { J.Unmarshal b with
          Status := "SOLD", ConsumerId := consumerId, SoldOnDate := env.now,
          CustomerPrice := customerPrice } ∧
        ∀ k, k ≠ carId → w2.get k = w.get k) := by
  refine ⟨?_, ?_, ?_⟩
  · intro dealerId shippingPrice w2 h
    obtain ⟨b2, hb2, hw⟩ := ShipToDealer_ok_inv J env w w2 carId dealerId shippingPrice _ h
    rw [hb] at hb2
    cases hb2
    subst hw
    exact ⟨_, WorldState.get_put_self w carId _, rfl, hJ _,
      fun k hk => WorldState.get_put_ne w carId k _ hk⟩
  · intro w2 h
    obtain ⟨b2, hb2, hw⟩ := ReceiveDelivery_ok_inv J env w w2 carId _ h
    rw [hb] at hb2
    cases hb2
    subst hw
    exact ⟨_, WorldState.get_put_self w carId _, rfl, hJ _,
      fun k hk => WorldState.get_put_ne w carId k _ hk⟩
  · intro consumerId customerPrice w2 h
    obtain ⟨b2, hb2, hw⟩ := SellToCustomer_ok_inv J env w w2 carId consumerId customerPrice _ h
    rw [hb] at hb2
    cases hb2
    subst hw
    exact ⟨_, WorldState.get_put_self w carId _, rfl, hJ _,
      fun k hk => WorldState.get_put_ne w carId k _ hk⟩

/-- In the seeded ledger, shipping the car under "CAR0" succeeds and rewrites four of its
fields; receiving and selling it rewrite two and four. -/
theorem transition_frame_witness :
    seededWorld.get "CAR0" = some (goJson.Marshal (sampleCar 0)) ∧
    (∃ w2, ShipToDealer goJson (Env.ok "t1") seededWorld "CAR0" "D102" 12000 "manufacturer" =
        (w2, none) ∧
      ∃ v, w2.get "CAR0" = some v ∧
        v = goJson.Marshal { goJson.Unmarshal (goJson.Marshal (sampleCar 0)) with
          DealerId := "D102", Status := "SHIPPED", ShippingDate := "t1",
          ShippingPrice := 12000 } ∧
        goJson.Unmarshal v = { goJson.Unmarshal (goJson.Marshal (sampleCar 0)) with
          DealerId := "D102", Status := "SHIPPED", ShippingDate := "t1",
          ShippingPrice := 12000 } ∧
        ∀ k, k ≠ "CAR0" → w2.get k = seededWorld.get k) :=
  ⟨rfl, _, Prod.ext rfl rfl,
    (transition_frame goJson goJson_roundTrip (Env.ok "t1") seededWorld "CAR0"
      (goJson.Marshal (sampleCar 0)) rfl).1 "D102" 12000 _ (Prod.ext rfl rfl)⟩

/-! ## Keys are never removed -/

theorem InitLedger_loop_keys (J : JsonCodec) (env : Env) (k : String) :
    ∀ (cars : List Car) (i : Nat) (w : WorldState), k ∈ w.keys →
      k ∈ (InitLedger.loop J env i cars w).1.keys
  | [], _, _, h => h
  | car :: rest, i, w, h => by
    have hput := PutState_keys env w ("CAR" ++ Itoa i) k (J.Marshal car) h
    unfold InitLedger.loop
    cases hp : PutState env w ("CAR" ++ Itoa i) (J.Marshal car) with
    | mk w2 err =>
      rw [hp] at hput
      cases err with
      | some e => simp only [hp]; exact hput
      | none => simp only [hp]; exact InitLedger_loop_keys J env k rest (i + 1) w2 hput

theorem invoke_keys (J : JsonCodec) (env : Env) (w : WorldState) (call : Call) (k : String)
    (h : k ∈ w.keys) : k ∈ (invoke J env w call).1.keys := by
  cases call with
  | InitLedger => exact InitLedger_loop_keys J env k sampleCars 0 w h
  | createNewCar manufacturerId carId carMake carModel carColor manufacturingDate
      manufacturerPrice role =>
    simp only [invoke, createNewCar]
    split_ifs
    · exact h
    · exact PutState_keys env w _ k _ h
  | QueryCar carNumber =>
    simp only [invoke]
    cases QueryCar J env w carNumber <;> exact h
  | QueryAllCars =>
    simp only [invoke]
    cases QueryAllCars J env w <;> exact h
  | ShipToDealer carId dealerId shippingPrice role =>
    simp only [invoke, ShipToDealer]
    split_ifs
    · exact h
    · cases QueryCar J env w carId with
      | error err => exact h
      | ok car => exact PutState_keys env w _ k _ h
  | ReceiveDelivery carId role =>
    simp only [invoke, ReceiveDelivery]
    split_ifs
    · exact h
    · cases QueryCar J env w carId with
      | error err => exact h
      | ok car => exact PutState_keys env w _ k _ h
  | SellToCustomer carId consumerId customerPrice role =>
    simp only [invoke, SellToCustomer]
    split_ifs
    · exact h
    · cases QueryCar J env w carId with
      | error err => exact h
      | ok car => exact PutState_keys env w _ k _ h

theorem run_keys (J : JsonCodec) (k : String) :
    ∀ (calls : List (Env × Call)) (w : WorldState), k ∈ w.keys → k ∈ (run J calls w).keys
  | [], _, h => h
  | (env, call) :: rest, w, h => run_keys J k rest _ (invoke_keys J env w call k h)

/-- C7. Records are never deleted: whatever the operation (`InitLedger`, `createNewCar`,
`QueryCar`, `QueryAllCars`, `ShipToDealer`, `ReceiveDelivery`, `SellToCustomer`), its
arguments, and whether it succeeds or fails, a key that holds a value before the
invocation holds a value after it. -/
theorem records_never_deleted (J : JsonCodec) (env : Env) (w : WorldState) (call : Call)
    (k : String) (hpresent : w.get k ≠ none) : (invoke J env w call).1.get k ≠ none := by
  rw [← WorldState.mem_keys_iff] at hpresent ⊢
  exact invoke_keys J env w call k hpresent

/-- The key "CAR2" of the seeded ledger is still there after a sale of "CAR2", after a
refused shipment and after a second `InitLedger` whose writes fail. -/
theorem records_never_deleted_witness :
    seededWorld.get "CAR2" ≠ none ∧
    (invoke goJson (Env.ok "t1") seededWorld
      (Call.SellToCustomer "CAR2" "CUST104" 700000 "dealer")).1.get "CAR2" ≠ none ∧
    (invoke goJson (Env.ok "t1") seededWorld
      (Call.ShipToDealer "CAR2" "D103" 5000 "dealer")).1.get "CAR2" ≠ none ∧
    (invoke goJson { Env.ok "t1" with putStateErr := fun _ _ => some "write refused" }
      seededWorld Call.InitLedger).1.get "CAR2" ≠ none :=
  ⟨by decide,
    records_never_deleted goJson (Env.ok "t1") seededWorld _ "CAR2" (by decide),
    records_never_deleted goJson (Env.ok "t1") seededWorld _ "CAR2" (by decide),
    records_never_deleted goJson _ seededWorld _ "CAR2" (by decide)⟩

/-! ## The range query -/

theorem QueryAllCars_loop_ok (J : JsonCodec) (env : Env) (hnext : ∀ key, env.nextErr key = none) :
    ∀ (entries : List (String × Bytes)) (results : List QueryResult),
      QueryAllCars.loop J env entries results =
        .ok (results ++ entries.map fun kv => { Key := kv.1, Record := J.Unmarshal kv.2 })
  | [], results => by simp [QueryAllCars.loop]
  | (key, value) :: rest, results => by
    unfold QueryAllCars.loop
    rw [hnext key]
    simp only []
    rw [QueryAllCars_loop_ok J env hnext rest]
    simp

theorem GetStateByRange_all (env : Env) (w : WorldState) (hrange : env.rangeErr = none) :
    GetStateByRange env w "" "" = .ok w.entries := by
  unfold GetStateByRange
  rw [hrange]
  simp

theorem QueryAllCars_ok (J : JsonCodec) (env : Env) (w : WorldState)
    (hrange : env.rangeErr = none) (hnext : ∀ key, env.nextErr key = none) :
    QueryAllCars J env w =
      .ok (w.entries.map fun kv => { Key := kv.1, Record := J.Unmarshal kv.2 }) := by
  unfold QueryAllCars
  simp only []
  rw [GetStateByRange_all env w hrange]
  simp only []
  rw [QueryAllCars_loop_ok J env hnext]
  simp

theorem getEntry_of_mem (k : String) (v : Bytes) :
    ∀ l : List (String × Bytes), (l.map Prod.fst).Nodup → (k, v) ∈ l → getEntry k l = some v
  | [], _, h => by simp at h
  | (k', v') :: rest, hnd, h => by
    rw [List.map_cons, List.nodup_cons] at hnd
    rcases List.mem_cons.mp h with h1 | h1
    · cases h1
      simp [getEntry]
    · have hk : ¬ k' = k := by
        intro e
        subst e
        exact hnd.1 (List.mem_map.mpr ⟨(k', v), h1, rfl⟩)
      simp [getEntry, hk, getEntry_of_mem k v rest hnd.2 h1]

/-- C4. `QueryAllCars` returns every key.  When the range scan and its iterator do not
fail, then (1) in every world state the call succeeds, the keys of the returned entries
are the keys of the world state, each listed once, a key is returned exactly when it holds
a value, and each entry carries the car decoded from the value under its key; and
(2) after a successful `createNewCar` with car id `k`, followed by any finite sequence of
contract invocations, successful or not, the returned list has an entry whose `Key` is `k`. -/
theorem QueryAllCars_returns_every_key (J : JsonCodec) (env : Env)
    (hrange : env.rangeErr = none) (hnext : ∀ key, env.nextErr key = none) :
    (∀ w : WorldState, ∃ results, QueryAllCars J env w = .ok results ∧
      results.map QueryResult.Key = w.keys ∧
      (results.map QueryResult.Key).Nodup ∧
      (∀ key, key ∈ results.map QueryResult.Key ↔ w.get key ≠ none) ∧
      ∀ r ∈ results, ∃ v, w.get r.Key = some v ∧ r.Record = J.Unmarshal v) ∧
    (∀ (env0 : Env) (w0 w1 : WorldState)
        (manufacturerId k carMake carModel carColor manufacturingDate : String)
        (manufacturerPrice : Int) (role : String),
      createNewCar J env0 w0 manufacturerId k carMake carModel carColor manufacturingDate
        manufacturerPrice role = (w1, none) →
      ∀ calls : List (Env × Call), ∃ results,
        QueryAllCars J env (run J calls w1) = .ok results ∧ ∃ r ∈ results, r.Key = k) := by
  have hkeys : ∀ w : WorldState,
      (w.entries.map fun kv => ({ Key := kv.1, Record := J.Unmarshal kv.2 } : QueryResult)).map
        QueryResult.Key = w.keys := by
    intro w
    simp [WorldState.keys, List.map_map, Function.comp_def]
  refine ⟨fun w => ⟨_, QueryAllCars_ok J env w hrange hnext, hkeys w, ?_, ?_, ?_⟩, ?_⟩
  · rw [hkeys w]; exact w.nodup
  · intro key
    rw [hkeys w]; exact WorldState.mem_keys_iff w key
  · intro r hr
    obtain ⟨kv, hkv, rfl⟩ := List.mem_map.mp hr
    exact ⟨kv.2, getEntry_of_mem kv.1 kv.2 w.entries w.nodup hkv, rfl⟩
  · intro env0 w0 w1 manufacturerId k carMake carModel carColor manufacturingDate
      manufacturerPrice role hcreate calls
    have hw1 := createNewCar_ok_inv J env0 w0 w1 manufacturerId k carMake carModel carColor
      manufacturingDate manufacturerPrice role hcreate
    have hk : k ∈ (run J calls w1).keys := by
      apply run_keys
      rw [hw1]
      exact WorldState.mem_keys_put_self w0 k _
    refine ⟨_, QueryAllCars_ok J env (run J calls w1) hrange hnext, ?_⟩
    rw [← hkeys (run J calls w1)] at hk
    obtain ⟨r, hr, hrk⟩ := List.mem_map.mp hk
    exact ⟨r, hr, hrk⟩

/-- After "M105" is created in the seeded ledger and then shipped, wrongly re-seeded and
queried, `QueryAllCars` succeeds and lists "M105"; on the seeded ledger it lists exactly
CAR0..CAR3. -/
theorem QueryAllCars_returns_every_key_witness :
    (Env.ok "t9").rangeErr = none ∧ (∀ key, (Env.ok "t9").nextErr key = none) ∧
    (∃ results, QueryAllCars goJson (Env.ok "t9") seededWorld = .ok results ∧
      results.map QueryResult.Key = seededWorld.keys ∧
      seededWorld.keys = ["CAR0", "CAR1", "CAR2", "CAR3"]) ∧
    (∃ results,
      QueryAllCars goJson (Env.ok "t9")
        (run goJson
          [(Env.ok "t2", Call.ShipToDealer "M105" "D101" 12000 "manufacturer"),
           (Env.ok "t3", Call.InitLedger),
           (Env.ok "t4", Call.QueryCar "M999")]
          (createNewCar goJson (Env.ok "t1") seededWorld "MOrg03" "M105" "2022" "MOrg03CM101"
            "White" "t0" 450000 "manufacturer").1) = .ok results ∧
      ∃ r ∈ results, r.Key = "M105") :=
  ⟨rfl, fun _ => rfl,
    (let ⟨results, h1, h2, _⟩ :=
      (QueryAllCars_returns_every_key goJson (Env.ok "t9") rfl (fun _ => rfl)).1 seededWorld
     ⟨results, h1, h2, by decide⟩),
    (QueryAllCars_returns_every_key goJson (Env.ok "t9") rfl (fun _ => rfl)).2
      (Env.ok "t1") seededWorld _ "MOrg03" "M105" "2022" "MOrg03CM101" "White" "t0" 450000
      "manufacturer" (Prod.ext rfl rfl) _⟩

/-! ## The scripted lifecycle of the test client -/

/-- C5 fails on the code.  The first submit of the test client, `createNewCar("MOrg03",
"M105", "2022", "MOrg03CM101", "White", d, 450000, "manufacturer")`, names a method that
is not exported and so was never registered: in every world state it is refused with
"Function createNewCar not found in contract CarChainCode" and writes nothing, whereas the
six exported methods are dispatched to.  On the seeded ledger "M105" therefore never
exists: the `ShipToDealer` of the script fails with "M105 does not exist" and so does the
query. -/
theorem lifecycle_createNewCar_not_dispatched (J : JsonCodec) (env : Env) (w : WorldState)
    (d : String) :
    dispatch J env w
        (Call.createNewCar "MOrg03" "M105" "2022" "MOrg03CM101" "White" d 450000 "manufacturer") =
      (w, some "Function createNewCar not found in contract CarChainCode") ∧
    dispatch J env w (Call.ShipToDealer "M105" "D101" 12000 "manufacturer") =
      ShipToDealer J env w "M105" "D101" 12000 "manufacturer" ∧
    dispatch J env w (Call.ReceiveDelivery "M105" "dealer") =
      ReceiveDelivery J env w "M105" "dealer" ∧
    dispatch J env w (Call.SellToCustomer "M105" "CUST103" 950000 "dealer") =
      SellToCustomer J env w "M105" "CUST103" 950000 "dealer" ∧
    dispatch J env w Call.InitLedger = InitLedger J env w ∧
    (dispatch goJson (Env.ok "t1") seededWorld
        (Call.createNewCar "MOrg03" "M105" "2022" "MOrg03CM101" "White" "t0" 450000
          "manufacturer")).1.get "M105" = none ∧
    dispatch goJson (Env.ok "t2")
        (dispatch goJson (Env.ok "t1") seededWorld
          (Call.createNewCar "MOrg03" "M105" "2022" "MOrg03CM101" "White" "t0" 450000
            "manufacturer")).1
        (Call.ShipToDealer "M105" "D101" 12000 "manufacturer") =
      (seededWorld, some "M105 does not exist") ∧
    QueryCar goJson (Env.ok "t5")
        (dispatch goJson (Env.ok "t1") seededWorld
          (Call.createNewCar "MOrg03" "M105" "2022" "MOrg03CM101" "White" "t0" 450000
            "manufacturer")).1 "M105" =
      .error "M105 does not exist" := by
  have habsent : seededWorld.get "M105" = none := by decide
  have hquery : ∀ now, QueryCar goJson (Env.ok now) seededWorld "M105" =
      .error "M105 does not exist" :=
    fun now => QueryCar_absent goJson (Env.ok now) seededWorld "M105" rfl habsent
  refine ⟨rfl, rfl, rfl, rfl, rfl, habsent, ?_, hquery "t5"⟩
  show ShipToDealer goJson (Env.ok "t2") seededWorld "M105" "D101" 12000 "manufacturer" = _
  simp [ShipToDealer, hquery "t2"]

/-- The four methods of the script called directly, as code of the package can call them.
From any world state, when the reads and writes of key "M105" do not fail and the codec
decodes what it encodes,
`createNewCar("MOrg03", "M105", "2022", "MOrg03CM101", "White", d, 450000, "manufacturer")`,
`ShipToDealer("M105", "D101", 12000, "manufacturer")`, `ReceiveDelivery("M105", "dealer")`
and `SellToCustomer("M105", "CUST103", 950000, "dealer")` each succeed; the queries of
"M105" after each step return cars of status "CREATED", "SHIPPED", "READY_FOR_SALE" and
"SOLD"; and the last one is the car with consumer id "CUST103", dealer id "D101", the
three prices and the three dates of the transitions.  This is the outcome the test client
expects; it is what the methods do, not what a submitted transaction reaches. -/
theorem lifecycle_direct_calls (J : JsonCodec) (hJ : J.RoundTrip) (w0 : WorldState) (d : String)
    (e1 e2 e3 e4 q1 q2 q3 q4 : Env)
    (hok : ∀ e ∈ [e1, e2, e3, e4, q1, q2, q3, q4],
      e.getStateErr "M105" = none ∧ ∀ v, e.putStateErr "M105" v = none) :
    ∃ (w1 w2 w3 w4 : WorldState) (c1 c2 c3 c4 : Car),
      createNewCar J e1 w0 "MOrg03" "M105" "2022" "MOrg03CM101" "White" d 450000
        "manufacturer" = (w1, none) ∧
      QueryCar J q1 w1 "M105" = .ok c1 ∧ c1.Status = "CREATED" ∧
      ShipToDealer J e2 w1 "M105" "D101" 12000 "manufacturer" = (w2, none) ∧
      QueryCar J q2 w2 "M105" = .ok c2 ∧ c2.Status = "SHIPPED" ∧
      ReceiveDelivery J e3 w2 "M105" "dealer" = (w3, none) ∧
      QueryCar J q3 w3 "M105" = .ok c3 ∧ c3.Status = "READY_FOR_SALE" ∧
      SellToCustomer J e4 w3 "M105" "CUST103" 950000 "dealer" = (w4, none) ∧
      QueryCar J q4 w4 "M105" = .ok c4 ∧ c4.Status = "SOLD" ∧
      c4.ConsumerId = "CUST103" ∧ c4.DealerId = "D101" ∧
      c4 = { ManufacturerId := "MOrg03", CarId := "M105", DealerId := "D101",
             ConsumerId := "CUST103", CarMake := "2022", CarModel := "MOrg03CM101",
             CarColor := "White", Status := "SOLD", ManufacturingDate := d,
             ShippingDate := e2.now, DeliveryDate := e3.now, SoldOnDate := e4.now,
             ManufacturerPrice := 450000, ShippingPrice := 12000, CustomerPrice := 950000 } := by
  have g1 := hok e1 (by simp)
  have g2 := hok e2 (by simp)
  have g3 := hok e3 (by simp)
  have g4 := hok e4 (by simp)
  have r1 := (hok q1 (by simp)).1
  have r2 := (hok q2 (by simp)).1
  have r3 := (hok q3 (by simp)).1
  have r4 := (hok q4 (by simp)).1
  let c1 : Car := { Car.zero with
    ManufacturerId := "MOrg03", CarId := "M105", CarMake := "2022", CarModel := "MOrg03CM101",
    CarColor := "White", Status := "CREATED", ManufacturingDate := d,
    ManufacturerPrice := 450000 }
  let c2 : Car := { c1 with
    DealerId := "D101", Status := "SHIPPED", ShippingDate := e2.now, ShippingPrice := 12000 }
  let c3 : Car := { c2 with Status := "READY_FOR_SALE", DeliveryDate := e3.now }
  let c4 : Car := { c3 with
    Status := "SOLD", ConsumerId := "CUST103", SoldOnDate := e4.now, CustomerPrice := 950000 }
  let w1 := w0.put "M105" (J.Marshal c1)
  let w2 := w1.put "M105" (J.Marshal c2)
  let w3 := w2.put "M105" (J.Marshal c3)
  let w4 := w3.put "M105" (J.Marshal c4)
  have hq1 : ∀ q : Env, q.getStateErr "M105" = none → QueryCar J q w1 "M105" = .ok c1 := by
    intro q hq
    rw [QueryCar_present J q w1 "M105" _ hq (WorldState.get_put_self _ _ _), hJ]
  have hq2 : ∀ q : Env, q.getStateErr "M105" = none → QueryCar J q w2 "M105" = .ok c2 := by
    intro q hq
    rw [QueryCar_present J q w2 "M105" _ hq (WorldState.get_put_self _ _ _), hJ]
  have hq3 : ∀ q : Env, q.getStateErr "M105" = none → QueryCar J q w3 "M105" = .ok c3 := by
    intro q hq
    rw [QueryCar_present J q w3 "M105" _ hq (WorldState.get_put_self _ _ _), hJ]
  have hq4 : ∀ q : Env, q.getStateErr "M105" = none → QueryCar J q w4 "M105" = .ok c4 := by
    intro q hq
    rw [QueryCar_present J q w4 "M105" _ hq (WorldState.get_put_self _ _ _), hJ]
  refine ⟨w1, w2, w3, w4, c1, c2, c3, c4, ?_, hq1 q1 r1, rfl, ?_, hq2 q2 r2, rfl, ?_,
    hq3 q3 r3, rfl, ?_, hq4 q4 r4, rfl, rfl, rfl, rfl⟩
  · simp only [createNewCar, ne_eq, not_true_eq_false, if_false]
    exact PutState_noFault e1 w0 "M105" _ (g1.2 _)
  · simp only [ShipToDealer, ne_eq, not_true_eq_false, if_false, hq1 e2 g2.1]
    exact PutState_noFault e2 w1 "M105" _ (g2.2 _)
  · simp only [ReceiveDelivery, ne_eq, not_true_eq_false, if_false, hq2 e3 g3.1]
    exact PutState_noFault e3 w2 "M105" _ (g3.2 _)
  · simp only [SellToCustomer, ne_eq, not_true_eq_false, if_false, hq3 e4 g4.1]
    exact PutState_noFault e4 w3 "M105" _ (g4.2 _)

/-- The four methods called directly on the seeded ledger with a codec proved to round-trip
and stub calls that all succeed: the car "M105" ends up SOLD to "CUST103". -/
theorem lifecycle_direct_calls_witness :
    goJson.RoundTrip ∧
    (∀ e ∈ [Env.ok "t1", Env.ok "t2", Env.ok "t3", Env.ok "t4", Env.ok "t5", Env.ok "t6",
        Env.ok "t7", Env.ok "t8"],
      e.getStateErr "M105" = none ∧ ∀ v, e.putStateErr "M105" v = none) ∧
    ∃ (w1 w2 w3 w4 : WorldState) (c1 c2 c3 c4 : Car),
      createNewCar goJson (Env.ok "t1") seededWorld "MOrg03" "M105" "2022" "MOrg03CM101" "White"
        "t0" 450000 "manufacturer" = (w1, none) ∧
      QueryCar goJson (Env.ok "t5") w1 "M105" = .ok c1 ∧ c1.Status = "CREATED" ∧
      ShipToDealer goJson (Env.ok "t2") w1 "M105" "D101" 12000 "manufacturer" = (w2, none) ∧
      QueryCar goJson (Env.ok "t6") w2 "M105" = .ok c2 ∧ c2.Status = "SHIPPED" ∧
      ReceiveDelivery goJson (Env.ok "t3") w2 "M105" "dealer" = (w3, none) ∧
      QueryCar goJson (Env.ok "t7") w3 "M105" = .ok c3 ∧ c3.Status = "READY_FOR_SALE" ∧
      SellToCustomer goJson (Env.ok "t4") w3 "M105" "CUST103" 950000 "dealer" = (w4, none) ∧
      QueryCar goJson (Env.ok "t8") w4 "M105" = .ok c4 ∧ c4.Status = "SOLD" ∧
      c4.ConsumerId = "CUST103" ∧ c4.DealerId = "D101" ∧
      c4 = { ManufacturerId := "MOrg03", CarId := "M105", DealerId := "D101",
             ConsumerId := "CUST103", CarMake := "2022", CarModel := "MOrg03CM101",
             CarColor := "White", Status := "SOLD", ManufacturingDate := "t0",
             ShippingDate := "t2", DeliveryDate := "t3", SoldOnDate := "t4",
             ManufacturerPrice := 450000, ShippingPrice := 12000, CustomerPrice := 950000 } :=
  have hok : ∀ e ∈ [Env.ok "t1", Env.ok "t2", Env.ok "t3", Env.ok "t4", Env.ok "t5",
      Env.ok "t6", Env.ok "t7", Env.ok "t8"],
      e.getStateErr "M105" = none ∧ ∀ v, e.putStateErr "M105" v = none := by
    intro e he
    simp only [List.mem_cons, List.mem_singleton, List.not_mem_nil, or_false] at he
    rcases he with rfl | rfl | rfl | rfl | rfl | rfl | rfl | rfl <;> exact ⟨rfl, fun _ => rfl⟩
  ⟨goJson_roundTrip, hok,
    lifecycle_direct_calls goJson goJson_roundTrip seededWorld "t0" (Env.ok "t1") (Env.ok "t2")
      (Env.ok "t3") (Env.ok "t4") (Env.ok "t5") (Env.ok "t6") (Env.ok "t7") (Env.ok "t8") hok⟩

/-! ## Seeding the ledger -/

theorem InitLedger_noFault (J : JsonCodec) (env : Env) (w : WorldState)
    (hput : ∀ k v, env.putStateErr k v = none) :
    InitLedger J env w =
      ((((w.put "CAR0" (J.Marshal (sampleCar 0))).put "CAR1" (J.Marshal (sampleCar 1))).put
        "CAR2" (J.Marshal (sampleCar 2))).put "CAR3" (J.Marshal (sampleCar 3)), none) := by
  have k0 : "CAR" ++ Itoa 0 = "CAR0" := by decide
  have k1 : "CAR" ++ Itoa 1 = "CAR1" := by decide
  have k2 : "CAR" ++ Itoa 2 = "CAR2" := by decide
  have k3 : "CAR" ++ Itoa 3 = "CAR3" := by decide
  simp only [InitLedger, sampleCars, InitLedger.loop, PutState, hput, k0, k1, k2, k3,
    Nat.zero_add, Nat.reduceAdd]
  rfl

/-- C10. `InitLedger` stores its four sample cars under the index-based keys "CAR0",
"CAR1", "CAR2", "CAR3", not under their car ids.  When the writes succeed and the codec
decodes what it encodes, it succeeds; the values then under CAR0..CAR3 are the encodings
of the sample cars, which decode to the cars with `CarId` M101, M102, M103, M104, each
with `Status` "SOLD"; and every other key holds what it held.  Consequently, after
`InitLedger` on the empty ledger, `QueryCar("M101")` fails with "M101 does not exist"
while `QueryCar("CAR0")` returns the car whose `CarId` is "M101". -/
theorem InitLedger_index_keys (J : JsonCodec) (hJ : J.RoundTrip) (env : Env) (w : WorldState)
    (hput : ∀ k v, env.putStateErr k v = none) :
    (∃ w2, InitLedger J env w = (w2, none) ∧
      (∀ i, i < 4 → ∃ v, w2.get ("CAR" ++ Itoa i) = some v ∧ v = J.Marshal (sampleCar i) ∧
        J.Unmarshal v = sampleCar i) ∧
      w2.get "CAR0" = some (J.Marshal (sampleCar 0)) ∧
      w2.get "CAR1" = some (J.Marshal (sampleCar 1)) ∧
      w2.get "CAR2" = some (J.Marshal (sampleCar 2)) ∧
      w2.get "CAR3" = some (J.Marshal (sampleCar 3)) ∧
      (∀ k, k ≠ "CAR0" → k ≠ "CAR1" → k ≠ "CAR2" → k ≠ "CAR3" → w2.get k = w.get k)) ∧
    ((sampleCar 0).CarId = "M101" ∧ (sampleCar 1).CarId = "M102" ∧
      (sampleCar 2).CarId = "M103" ∧ (sampleCar 3).CarId = "M104" ∧
      ∀ i, i < 4 → (sampleCar i).Status = "SOLD") ∧
    (∀ q : Env, q.getStateErr "M101" = none → q.getStateErr "CAR0" = none →
      QueryCar J q (InitLedger J env WorldState.empty).1 "M101" =
        .error "M101 does not exist" ∧
      ∃ car, QueryCar J q (InitLedger J env WorldState.empty).1 "CAR0" = .ok car ∧
        car = sampleCar 0 ∧ car.CarId = "M101") := by
  have g0 : ∀ w : WorldState, (InitLedger J env w).1.get "CAR0" =
      some (J.Marshal (sampleCar 0)) := by
    intro w
    rw [InitLedger_noFault J env w hput]
    simp only []
    rw [WorldState.get_put_ne _ _ _ _ (by decide), WorldState.get_put_ne _ _ _ _ (by decide),
      WorldState.get_put_ne _ _ _ _ (by decide), WorldState.get_put_self]
  have g1 : ∀ w : WorldState, (InitLedger J env w).1.get "CAR1" =
      some (J.Marshal (sampleCar 1)) := by
    intro w
    rw [InitLedger_noFault J env w hput]
    simp only []
    rw [WorldState.get_put_ne _ _ _ _ (by decide), WorldState.get_put_ne _ _ _ _ (by decide),
      WorldState.get_put_self]
  have g2 : ∀ w : WorldState, (InitLedger J env w).1.get "CAR2" =
      some (J.Marshal (sampleCar 2)) := by
    intro w
    rw [InitLedger_noFault J env w hput]
    simp only []
    rw [WorldState.get_put_ne _ _ _ _ (by decide), WorldState.get_put_self]
  have g3 : ∀ w : WorldState, (InitLedger J env w).1.get "CAR3" =
      some (J.Marshal (sampleCar 3)) := by
    intro w
    rw [InitLedger_noFault J env w hput]
    simp only []
    rw [WorldState.get_put_self]
  have gother : ∀ (w : WorldState) (k : String), k ≠ "CAR0" → k ≠ "CAR1" → k ≠ "CAR2" →
      k ≠ "CAR3" → (InitLedger J env w).1.get k = w.get k := by
    intro w k h0 h1 h2 h3
    rw [InitLedger_noFault J env w hput]
    simp only []
    rw [WorldState.get_put_ne _ _ _ _ h3, WorldState.get_put_ne _ _ _ _ h2,
      WorldState.get_put_ne _ _ _ _ h1, WorldState.get_put_ne _ _ _ _ h0]
  refine ⟨⟨(InitLedger J env w).1, ?_, ?_, g0 w, g1 w, g2 w, g3 w, gother w⟩, ?_, ?_⟩
  · rw [InitLedger_noFault J env w hput]
  · intro i hi
    interval_cases i
    · exact ⟨_, g0 w, rfl, hJ _⟩
    · exact ⟨_, g1 w, rfl, hJ _⟩
    · exact ⟨_, g2 w, rfl, hJ _⟩
    · exact ⟨_, g3 w, rfl, hJ _⟩
  · refine ⟨rfl, rfl, rfl, rfl, ?_⟩
    intro i hi
    interval_cases i <;> rfl
  · intro q hq1 hq0
    constructor
    · have habs : (InitLedger J env WorldState.empty).1.get "M101" = none := by
        rw [gother WorldState.empty "M101" (by decide) (by decide) (by decide) (by decide)]
        rfl
      exact QueryCar_absent J q _ "M101" hq1 habs
    · refine ⟨sampleCar 0, ?_, rfl, rfl⟩
      rw [QueryCar_present J q _ "CAR0" _ hq0 (g0 WorldState.empty), hJ]

/-- With the executable codec and stub calls that succeed, on the empty ledger:
"M101" does not exist after `InitLedger`, and "CAR0" holds the car M101. -/
theorem InitLedger_index_keys_witness :
    goJson.RoundTrip ∧ (∀ k v, (Env.ok "t0").putStateErr k v = none) ∧
    QueryCar goJson (Env.ok "t1") (InitLedger goJson (Env.ok "t0") WorldState.empty).1 "M101" =
      .error "M101 does not exist" ∧
    (∃ car, QueryCar goJson (Env.ok "t1") (InitLedger goJson (Env.ok "t0") WorldState.empty).1
        "CAR0" = .ok car ∧ car = sampleCar 0 ∧ car.CarId = "M101") ∧
    (sampleCar 0).CarId = "M101" ∧
    (InitLedger goJson (Env.ok "t0") WorldState.empty).1.keys = ["CAR0", "CAR1", "CAR2", "CAR3"] :=
  ⟨goJson_roundTrip, fun _ _ => rfl,
    ((InitLedger_index_keys goJson goJson_roundTrip (Env.ok "t0") WorldState.empty
      (fun _ _ => rfl)).2.2 (Env.ok "t1") rfl rfl).1,
    ((InitLedger_index_keys goJson goJson_roundTrip (Env.ok "t0") WorldState.empty
      (fun _ _ => rfl)).2.2 (Env.ok "t1") rfl rfl).2,
    rfl, by decide⟩

/-! ## Status order -/

theorem rankAt_put (J : JsonCodec) (hJ : J.RoundTrip) (w : WorldState) (key k : String)
    (c : Car) :
    rankAt J (w.put key (J.Marshal c)) k =
      if k = key then statusRank c.Status else rankAt J w k := by
  unfold rankAt
  split_ifs with hk
  · subst hk
    rw [WorldState.get_put_self]
    simp only []
    rw [hJ]
  · rw [WorldState.get_put_ne w key k _ hk]

/-- C1 fails as stated: in the seeded ledger the car under "CAR0" is SOLD (rank 3); a
`ShipToDealer` on it by the manufacturer succeeds and leaves it SHIPPED (rank 1), and a
`createNewCar` with car id "CAR0" succeeds and leaves it CREATED (rank 0). -/
theorem status_reversal_counterexample :
    rankAt goJson seededWorld "CAR0" = some 3 ∧
    (ShipToDealer goJson (Env.ok "t1") seededWorld "CAR0" "D102" 12000 "manufacturer").2 = none ∧
    rankAt goJson
      (ShipToDealer goJson (Env.ok "t1") seededWorld "CAR0" "D102" 12000 "manufacturer").1
      "CAR0" = some 1 ∧
    (createNewCar goJson (Env.ok "t1") seededWorld "MOrg03" "CAR0" "2022" "MOrg03CM101" "White"
      "t0" 450000 "manufacturer").2 = none ∧
    rankAt goJson
      (createNewCar goJson (Env.ok "t1") seededWorld "MOrg03" "CAR0" "2022" "MOrg03CM101" "White"
        "t0" 450000 "manufacturer").1
      "CAR0" = some 0 := by
  decide

theorem put_status_facts (J : JsonCodec) (hJ : J.RoundTrip) (w : WorldState) (key : String)
    (c : Car) (t : Nat) (ht : statusRank c.Status = some t) :
    rankAt J (w.put key (J.Marshal c)) key = some t ∧
    (∃ v, (w.put key (J.Marshal c)).get key = some v ∧ (J.Unmarshal v).Status = c.Status) ∧
    (∀ k, k ≠ key → (w.put key (J.Marshal c)).get k = w.get k) ∧
    (∀ k r, rankAt J w k = some r → (k ≠ key ∨ r ≤ t) →
      ∃ r2, rankAt J (w.put key (J.Marshal c)) k = some r2 ∧ r ≤ r2) := by
  refine ⟨?_, ⟨_, WorldState.get_put_self w key _, by rw [hJ]⟩,
    fun k hk => WorldState.get_put_ne w key k _ hk, ?_⟩
  · rw [rankAt_put J hJ, if_pos rfl, ht]
  · intro k r hr hcond
    rw [rankAt_put J hJ]
    split_ifs with hk
    · rcases hcond with h | h
      · exact absurd hk h
      · exact ⟨t, ht, h⟩
    · exact ⟨r, hr, le_refl r⟩

/-- C1, amended. A successful `createNewCar`, `ShipToDealer`, `ReceiveDelivery` or
`SellToCustomer` writes its own status under its `carId` (CREATED, SHIPPED,
READY_FOR_SALE, SOLD respectively, of rank 0, 1, 2, 3) without examining the current one,
and leaves the value under every other key as it was.  Hence the rank of the status held
under a key `k` after the call is greater than or equal to its rank before, provided `k`
is not the `carId` of the call or the status before ranks no higher than the status the
call writes. -/
theorem status_not_reversed_below_target (J : JsonCodec) (hJ : J.RoundTrip) (env : Env)
    (w w2 : WorldState) :
    (∀ (manufacturerId carId carMake carModel carColor manufacturingDate : String)
        (manufacturerPrice : Int) (role : String),
      createNewCar J env w manufacturerId carId carMake carModel carColor manufacturingDate
        manufacturerPrice role = (w2, none) →
      rankAt J w2 carId = some 0 ∧
      (∃ v, w2.get carId = some v ∧ (J.Unmarshal v).Status = "CREATED") ∧
      (∀ k, k ≠ carId → w2.get k = w.get k) ∧
      (∀ k r, rankAt J w k = some r → (k ≠ carId ∨ r ≤ 0) →
        ∃ r2, rankAt J w2 k = some r2 ∧ r ≤ r2)) ∧
    (∀ (carId dealerId : String) (shippingPrice : Int) (role : String),
      ShipToDealer J env w carId dealerId shippingPrice role = (w2, none) →
      rankAt J w2 carId = some 1 ∧
      (∃ v, w2.get carId = some v ∧ (J.Unmarshal v).Status = "SHIPPED") ∧
      (∀ k, k ≠ carId → w2.get k = w.get k) ∧
      (∀ k r, rankAt J w k = some r → (k ≠ carId ∨ r ≤ 1) →
        ∃ r2, rankAt J w2 k = some r2 ∧ r ≤ r2)) ∧
    (∀ (carId role : String),
      ReceiveDelivery J env w carId role = (w2, none) →
      rankAt J w2 carId = some 2 ∧
      (∃ v, w2.get carId = some v ∧ (J.Unmarshal v).Status = "READY_FOR_SALE") ∧
      (∀ k, k ≠ carId → w2.get k = w.get k) ∧
      (∀ k r, rankAt J w k = some r → (k ≠ carId ∨ r ≤ 2) →
        ∃ r2, rankAt J w2 k = some r2 ∧ r ≤ r2)) ∧
    (∀ (carId consumerId : String) (customerPrice : Int) (role : String),
      SellToCustomer J env w carId consumerId customerPrice role = (w2, none) →
      rankAt J w2 carId = some 3 ∧
      (∃ v, w2.get carId = some v ∧ (J.Unmarshal v).Status = "SOLD") ∧
      (∀ k, k ≠ carId → w2.get k = w.get k) ∧
      (∀ k r, rankAt J w k = some r → (k ≠ carId ∨ r ≤ 3) →
        ∃ r2, rankAt J w2 k = some r2 ∧ r ≤ r2)) := by
  refine ⟨?_, ?_, ?_, ?_⟩
  · intro manufacturerId carId carMake carModel carColor manufacturingDate manufacturerPrice
      role hok
    have hw := createNewCar_ok_inv J env w w2 _ _ _ _ _ _ _ _ hok
    rw [hw]
    exact put_status_facts J hJ w carId _ 0 rfl
  · intro carId dealerId shippingPrice role hok
    obtain ⟨b, -, hw⟩ := ShipToDealer_ok_inv J env w w2 _ _ _ _ hok
    rw [hw]
    exact put_status_facts J hJ w carId _ 1 rfl
  · intro carId role hok
    obtain ⟨b, -, hw⟩ := ReceiveDelivery_ok_inv J env w w2 _ _ hok
    rw [hw]
    exact put_status_facts J hJ w carId _ 2 rfl
  · intro carId consumerId customerPrice role hok
    obtain ⟨b, -, hw⟩ := SellToCustomer_ok_inv J env w w2 _ _ _ _ hok
    rw [hw]
    exact put_status_facts J hJ w carId _ 3 rfl

/-- Shipping the freshly created car "M105" takes it from rank 0 to rank 1, leaves the
SOLD car under "CAR0" at rank 3 and its stored value untouched. -/
theorem status_not_reversed_below_target_witness :
    goJson.RoundTrip ∧
    rankAt goJson createdWorld "M105" = some 0 ∧
    rankAt goJson createdWorld "CAR0" = some 3 ∧
    (ShipToDealer goJson (Env.ok "t2") createdWorld "M105" "D101" 12000 "manufacturer").2 =
      none ∧
    rankAt goJson
        (ShipToDealer goJson (Env.ok "t2") createdWorld "M105" "D101" 12000 "manufacturer").1
        "M105" = some 1 ∧
    (ShipToDealer goJson (Env.ok "t2") createdWorld "M105" "D101" 12000 "manufacturer").1.get
        "CAR0" = createdWorld.get "CAR0" ∧
    (∃ r2, rankAt goJson
        (ShipToDealer goJson (Env.ok "t2") createdWorld "M105" "D101" 12000 "manufacturer").1
        "M105" = some r2 ∧ 0 ≤ r2) ∧
    (∃ r2, rankAt goJson
        (ShipToDealer goJson (Env.ok "t2") createdWorld "M105" "D101" 12000 "manufacturer").1
        "CAR0" = some r2 ∧ 3 ≤ r2) :=
  ⟨goJson_roundTrip, by decide, by decide, rfl,
    ((status_not_reversed_below_target goJson goJson_roundTrip (Env.ok "t2") createdWorld
      _).2.1 "M105" "D101" 12000 "manufacturer" (Prod.ext rfl rfl)).1,
    ((status_not_reversed_below_target goJson goJson_roundTrip (Env.ok "t2") createdWorld
      _).2.1 "M105" "D101" 12000 "manufacturer" (Prod.ext rfl rfl)).2.2.1 "CAR0" (by decide),
    ((status_not_reversed_below_target goJson goJson_roundTrip (Env.ok "t2") createdWorld
      _).2.1 "M105" "D101" 12000 "manufacturer" (Prod.ext rfl rfl)).2.2.2 "M105" 0
        (by decide) (Or.inr (by decide)),
    ((status_not_reversed_below_target goJson goJson_roundTrip (Env.ok "t2") createdWorld
      _).2.1 "M105" "D101" 12000 "manufacturer" (Prod.ext rfl rfl)).2.2.2 "CAR0" 3
        (by decide) (Or.inl (by decide))⟩

/-! ## The REST handlers after a ledger error -/

theorem Sprintf_plain (c : Char) (rest : List Char) (operands : List String) (hc : c ≠ '%') :
    Sprintf (c :: rest) operands = c :: Sprintf rest operands := by
  rw [Sprintf.eq_def]; simp [hc]

theorem Fprintf_error_line (w : ResponseWriter) (text : List Char) (e : String)
    (htext : '%' ∉ text) :
    Fprintf w (String.mk (text ++ ['%', 's', '\n'])) [e] = w ++ String.mk text ++ e ++ "\n" := by
  have key : ∀ t : List Char, '%' ∉ t →
      Sprintf (t ++ ['%', 's', '\n']) [e] = t ++ (e.data ++ ['\n']) := by
    intro t
    induction t with
    | nil => intro _; simp [Sprintf]
    | cons c t ih =>
      intro h
      have hc : c ≠ '%' := fun hc => h (by simp [hc])
      have ht : '%' ∉ t := fun ht => h (List.mem_cons_of_mem _ ht)
      rw [List.cons_append, Sprintf_plain c _ _ hc, ih ht, List.cons_append]
  unfold Fprintf
  simp only [key text htext]
  apply String.ext
  simp [String.data_append]

theorem Fprintf_empty (w : ResponseWriter) : Fprintf w "" [] = w := by
  unfold Fprintf
  apply String.ext
  simp [Sprintf, String.data_append]

/-- C8. The REST handlers do not abort on a ledger error.  When the evaluate or submit call
of a handler returns the error `e` with a nil result, the response body is what
`GetContract` left in it, then the handler's formatted error line for `e`, then the output
of the happy-path write applied to the nil result: the JSON text `null` and a line feed
for `returnAllCars` and `returnSingleCar`, the empty string for `_createNewCar`,
`_shipToDealer`, `_receiveDelivery` and `_sellToCustomer` (which also append the decoded
request body to the global `cars`).  When no step of the connection reports an error,
`GetContract` leaves the body as it found it. -/
theorem handlers_continue_after_error (J : JsonCodec) (gw : Gateway) (cars : List Car)
    (w : ResponseWriter) (r : Request) (e : String) :
    (gw.contract.EvaluateTransaction "QueryAllCars" [] = (none, some e) →
      returnAllCars gw w r =
        (GetContract gw w).1 ++ "Failed to evaluate transaction: " ++ e ++ "\n" ++ "null\n") ∧
    (gw.contract.EvaluateTransaction "QueryCar" [r.Vars "id"] = (none, some e) →
      returnSingleCar gw w r =
        (GetContract gw w).1 ++ "Failed to evaluate QueryCar transaction: " ++ e ++ "\n" ++
          "null\n") ∧
    ((∀ args, gw.contract.SubmitTransaction "createNewCar" args = (none, some e)) →
      _createNewCar J gw cars w r =
        ((GetContract gw w).1 ++ "Failed to submit  createNewCar transaction: " ++ e ++ "\n" ++ "",
          cars ++ [J.Unmarshal r.Body])) ∧
    ((∀ args, gw.contract.SubmitTransaction "ShipToDealer" args = (none, some e)) →
      _shipToDealer J gw cars w r =
        ((GetContract gw w).1 ++ "Failed to submit  createNewCar transaction: " ++ e ++ "\n" ++ "",
          cars ++ [J.Unmarshal r.Body])) ∧
    ((∀ args, gw.contract.SubmitTransaction "ReceiveDelivery" args = (none, some e)) →
      _receiveDelivery J gw cars w r =
        ((GetContract gw w).1 ++ "Failed to submit  ReceiveDelivery transaction: " ++ e ++ "\n" ++
          "", cars ++ [J.Unmarshal r.Body])) ∧
    ((∀ args, gw.contract.SubmitTransaction "SellToCustomer" args = (none, some e)) →
      _sellToCustomer J gw cars w r =
        ((GetContract gw w).1 ++ "Failed to submit  SellToCustomer transaction: " ++ e ++ "\n" ++
          "", cars ++ [J.Unmarshal r.Body])) ∧
    (gw.newFileSystemWalletErr = none → gw.walletExists = true → gw.connectErr = none →
      gw.getNetworkErr = none → (GetContract gw w).1 = w) := by
  have hc : (GetContract gw w).2 = gw.contract := rfl
  have f1 : ∀ w0 : ResponseWriter, Fprintf w0 "Failed to evaluate transaction: %s\n" [e] =
      w0 ++ "Failed to evaluate transaction: " ++ e ++ "\n" :=
    fun w0 => Fprintf_error_line w0 "Failed to evaluate transaction: ".data e (by decide)
  have f2 : ∀ w0 : ResponseWriter,
      Fprintf w0 "Failed to evaluate QueryCar transaction: %s\n" [e] =
      w0 ++ "Failed to evaluate QueryCar transaction: " ++ e ++ "\n" :=
    fun w0 => Fprintf_error_line w0 "Failed to evaluate QueryCar transaction: ".data e
      (by decide)
  have f3 : ∀ w0 : ResponseWriter,
      Fprintf w0 "Failed to submit  createNewCar transaction: %s\n" [e] =
      w0 ++ "Failed to submit  createNewCar transaction: " ++ e ++ "\n" :=
    fun w0 => Fprintf_error_line w0 "Failed to submit  createNewCar transaction: ".data e
      (by decide)
  have f4 : ∀ w0 : ResponseWriter,
      Fprintf w0 "Failed to submit  ReceiveDelivery transaction: %s\n" [e] =
      w0 ++ "Failed to submit  ReceiveDelivery transaction: " ++ e ++ "\n" :=
    fun w0 => Fprintf_error_line w0 "Failed to submit  ReceiveDelivery transaction: ".data e
      (by decide)
  have f5 : ∀ w0 : ResponseWriter,
      Fprintf w0 "Failed to submit  SellToCustomer transaction: %s\n" [e] =
      w0 ++ "Failed to submit  SellToCustomer transaction: " ++ e ++ "\n" :=
    fun w0 => Fprintf_error_line w0 "Failed to submit  SellToCustomer transaction: ".data e
      (by decide)
  refine ⟨?_, ?_, ?_, ?_, ?_, ?_, ?_⟩
  · intro h
    simp only [returnAllCars, hc, h, f1, Encode]
  · intro h
    simp only [returnSingleCar, hc, h, f2, Encode]
  · intro h
    simp only [_createNewCar, hc, h, f3, bytesToString, Fprintf_empty, String.append_empty]
  · intro h
    simp only [_shipToDealer, hc, h, f3, bytesToString, Fprintf_empty, String.append_empty]
  · intro h
    simp only [_receiveDelivery, hc, h, f4, bytesToString, Fprintf_empty, String.append_empty]
  · intro h
    simp only [_sellToCustomer, hc, h, f5, bytesToString, Fprintf_empty, String.append_empty]
  · intro h1 h2 h3 h4
    simp [GetContract, h1, h2, h3, h4]

/-- With a gateway that connects and whose ledger calls all fail with "boom": the two
query handlers answer the error line followed by `null`, the four submit handlers the
error line alone. -/
theorem handlers_continue_after_error_witness :
    returnAllCars (Gateway.answering (none, some "boom")) "" ⟨fun _ => "M105", ""⟩ =
      "Failed to evaluate transaction: boom\nnull\n" ∧
    returnSingleCar (Gateway.answering (none, some "boom")) "" ⟨fun _ => "M105", ""⟩ =
      "Failed to evaluate QueryCar transaction: boom\nnull\n" ∧
    _createNewCar goJson (Gateway.answering (none, some "boom")) [] ""
        ⟨fun _ => "", goJson.Marshal (sampleCar 0)⟩ =
      ("Failed to submit  createNewCar transaction: boom\n", [sampleCar 0]) ∧
    _shipToDealer goJson (Gateway.answering (none, some "boom")) [] ""
        ⟨fun _ => "", goJson.Marshal (sampleCar 0)⟩ =
      ("Failed to submit  createNewCar transaction: boom\n", [sampleCar 0]) ∧
    _receiveDelivery goJson (Gateway.answering (none, some "boom")) [] ""
        ⟨fun _ => "", goJson.Marshal (sampleCar 0)⟩ =
      ("Failed to submit  ReceiveDelivery transaction: boom\n", [sampleCar 0]) ∧
    _sellToCustomer goJson (Gateway.answering (none, some "boom")) [] ""
        ⟨fun _ => "", goJson.Marshal (sampleCar 0)⟩ =
      ("Failed to submit  SellToCustomer transaction: boom\n", [sampleCar 0]) :=
  ⟨((handlers_continue_after_error goJson (Gateway.answering (none, some "boom")) [] ""
      ⟨fun _ => "M105", ""⟩ "boom").1 rfl).trans (by decide),
    ((handlers_continue_after_error goJson (Gateway.answering (none, some "boom")) [] ""
      ⟨fun _ => "M105", ""⟩ "boom").2.1 rfl).trans (by decide),
    ((handlers_continue_after_error goJson (Gateway.answering (none, some "boom")) [] ""
      ⟨fun _ => "", goJson.Marshal (sampleCar 0)⟩ "boom").2.2.1 (fun _ => rfl)).trans (by decide),
    ((handlers_continue_after_error goJson (Gateway.answering (none, some "boom")) [] ""
      ⟨fun _ => "", goJson.Marshal (sampleCar 0)⟩ "boom").2.2.2.1 (fun _ => rfl)).trans
        (by decide),
    ((handlers_continue_after_error goJson (Gateway.answering (none, some "boom")) [] ""
      ⟨fun _ => "", goJson.Marshal (sampleCar 0)⟩ "boom").2.2.2.2.1 (fun _ => rfl)).trans
        (by decide),
    ((handlers_continue_after_error goJson (Gateway.answering (none, some "boom")) [] ""
      ⟨fun _ => "", goJson.Marshal (sampleCar 0)⟩ "boom").2.2.2.2.2.1 (fun _ => rfl)).trans
        (by decide)⟩

/-! ## The price argument of the REST handlers -/

theorem intToString_data (p : Int) :
    (0 ≤ p ∧ (p < 55296 ∨ (57343 < p ∧ p ≤ 1114111)) ∧
      (intToString p).data = [Char.ofNat p.toNat]) ∨
    (¬ (0 ≤ p ∧ (p < 55296 ∨ (57343 < p ∧ p ≤ 1114111))) ∧
      (intToString p).data = [Char.ofNat 65533]) := by
  unfold intToString
  split_ifs with h
  · exact Or.inl ⟨h.1, h.2, rfl⟩
  · exact Or.inr ⟨h, rfl⟩

theorem formatInt_shape (p : Int) :
    (∃ n : Nat, n < 10 ∧ p = (n : Int) ∧ formatInt p = [digitChar n]) ∨ 2 ≤ (formatInt p).length := by
  obtain ⟨d, tl, hd, -⟩ := natDigits_head p.natAbs p.natAbs
  unfold formatInt
  split_ifs with hneg
  · right
    rw [hd]
    simp
  · by_cases hsmall : p.natAbs < 10
    · left
      refine ⟨p.natAbs, hsmall, by omega, ?_⟩
      simp [natDigits, hsmall]
    · right
      obtain ⟨m, hm⟩ : ∃ m, p.natAbs = m + 1 := ⟨p.natAbs - 1, by omega⟩
      obtain ⟨d2, tl2, hd2, -⟩ := natDigits_head m (p.natAbs / 10)
      rw [natDigits]
      simp only [hsmall, if_false]
      rw [hm] at hd2 ⊢
      rw [hd2]
      simp

theorem intToString_ne_formatInt (p : Int) : intToString p ≠ String.mk (formatInt p) := by
  intro heq
  have hdata : (intToString p).data = formatInt p := by rw [heq]
  rcases formatInt_shape p with ⟨n, hn, hp, hf⟩ | hlen
  · rcases intToString_data p with ⟨-, -, hd⟩ | ⟨hbad, -⟩
    · rw [hd, hf, hp] at hdata
      simp only [Int.toNat_ofNat, List.cons.injEq, and_true] at hdata
      revert hdata
      interval_cases n <;> decide
    · exact hbad ⟨by omega, Or.inl (by omega)⟩
  · have hone : (intToString p).data.length = 1 := by
      rcases intToString_data p with ⟨-, -, hd⟩ | ⟨-, hd⟩ <;> rw [hd] <;> rfl
    rw [hdata] at hone
    omega

/-- C11. The REST handlers forward an integer price as Go's `string(int)` conversion, not
as decimal text.  For every integer `p`, `string(p)` is the text of the single code point
numbered `p` when `p` is a valid code point and of U+FFFD otherwise, so it is one
character long and differs from the decimal representation of `p`.  And with every
gateway, `_createNewCar`, `_shipToDealer` and `_sellToCustomer` answer from what
`SubmitTransaction` returns for the argument list whose price entry is that conversion of
the request's `ManufacturerPrice`, `ShippingPrice` and `CustomerPrice` respectively. -/
theorem price_forwarded_as_code_point (J : JsonCodec) (gw : Gateway) (cars : List Car)
    (w : ResponseWriter) (r : Request) :
    (∀ p : Int,
      ((0 ≤ p ∧ (p < 55296 ∨ (57343 < p ∧ p ≤ 1114111))) →
        intToString p = String.singleton (Char.ofNat p.toNat) ∧
          (Char.ofNat p.toNat).toNat = p.toNat) ∧
      (¬ (0 ≤ p ∧ (p < 55296 ∨ (57343 < p ∧ p ≤ 1114111))) →
        intToString p = String.singleton (Char.ofNat 65533)) ∧
      (intToString p).length = 1 ∧
      intToString p ≠ String.mk (formatInt p)) ∧
    (_createNewCar J gw cars w r =
      match gw.contract.SubmitTransaction "createNewCar"
        [(J.Unmarshal r.Body).ManufacturerId, (J.Unmarshal r.Body).CarId,
          (J.Unmarshal r.Body).CarMake, (J.Unmarshal r.Body).CarModel,
          (J.Unmarshal r.Body).CarColor, (J.Unmarshal r.Body).ManufacturingDate,
          intToString (J.Unmarshal r.Body).ManufacturerPrice, "manufacturer"] with
      | (result, err) =>
        (Fprintf
          (match err with
            | some e =>
              Fprintf (GetContract gw w).1 "Failed to submit  createNewCar transaction: %s\n" [e]
            | none => (GetContract gw w).1)
          (bytesToString result) [], cars ++ [J.Unmarshal r.Body])) ∧
    (_shipToDealer J gw cars w r =
      match gw.contract.SubmitTransaction "ShipToDealer"
        [(J.Unmarshal r.Body).CarId, (J.Unmarshal r.Body).DealerId,
          intToString (J.Unmarshal r.Body).ShippingPrice, "manufacturer"] with
      | (result, err) =>
        (Fprintf
          (match err with
            | some e =>
              Fprintf (GetContract gw w).1 "Failed to submit  createNewCar transaction: %s\n" [e]
            | none => (GetContract gw w).1)
          (bytesToString result) [], cars ++ [J.Unmarshal r.Body])) ∧
    (_sellToCustomer J gw cars w r =
      match gw.contract.SubmitTransaction "SellToCustomer"
        [(J.Unmarshal r.Body).CarId, (J.Unmarshal r.Body).ConsumerId,
          intToString (J.Unmarshal r.Body).CustomerPrice, "dealer"] with
      | (result, err) =>
        (Fprintf
          (match err with
            | some e =>
              Fprintf (GetContract gw w).1 "Failed to submit  SellToCustomer transaction: %s\n"
                [e]
            | none => (GetContract gw w).1)
          (bytesToString result) [], cars ++ [J.Unmarshal r.Body])) := by
  refine ⟨fun p => ⟨?_, ?_, ?_, intToString_ne_formatInt p⟩, rfl, rfl, rfl⟩
  · intro hvalid
    refine ⟨by simp [intToString, hvalid], ?_⟩
    have hlt : p.toNat < 55296 ∨ (57343 < p.toNat ∧ p.toNat < 1114112) := by omega
    have hv : p.toNat.isValidChar := by
      rcases hlt with h | h
      · exact Or.inl h
      · exact Or.inr h
    simp only [Char.ofNat, hv, dite_true, Char.ofNatAux, Char.toNat]
    rfl
  · intro hinvalid
    simp [intToString, hinvalid]
  · rcases intToString_data p with ⟨-, -, hd⟩ | ⟨-, hd⟩ <;>
      simp [String.length, hd]

/-- A ledger connection that reports back the price argument it was handed: for a request
whose prices are 450000, 12000 and 950000 (the values of the test client) the three
handlers hand over the one code point U+6DDD0, U+2EE0 and U+E7EF0, not the decimal texts. -/
theorem price_forwarded_as_code_point_witness :
    (_createNewCar goJson (Gateway.echoing 6) [] ""
      ⟨fun _ => "", goJson.Marshal { sampleCar 0 with ManufacturerPrice := 450000 }⟩).1 =
      "Failed to submit  createNewCar transaction: " ++ String.singleton (Char.ofNat 450000) ++
        "\n" ∧
    (_shipToDealer goJson (Gateway.echoing 2) [] ""
      ⟨fun _ => "", goJson.Marshal { sampleCar 0 with ShippingPrice := 12000 }⟩).1 =
      "Failed to submit  createNewCar transaction: " ++ String.singleton (Char.ofNat 12000) ++
        "\n" ∧
    (_sellToCustomer goJson (Gateway.echoing 2) [] ""
      ⟨fun _ => "", goJson.Marshal { sampleCar 0 with CustomerPrice := 950000 }⟩).1 =
      "Failed to submit  SellToCustomer transaction: " ++ String.singleton (Char.ofNat 950000) ++
        "\n" ∧
    intToString 450000 ≠ String.mk (formatInt 450000) ∧
    String.mk (formatInt 450000) = "450000" ∧
    intToString 450000 = String.singleton (Char.ofNat 450000) :=
  ⟨(congrArg Prod.fst (price_forwarded_as_code_point goJson (Gateway.echoing 6) [] ""
      ⟨fun _ => "", goJson.Marshal { sampleCar 0 with ManufacturerPrice := 450000 }⟩).2.1).trans
      (by decide),
    (congrArg Prod.fst (price_forwarded_as_code_point goJson (Gateway.echoing 2) [] ""
      ⟨fun _ => "", goJson.Marshal { sampleCar 0 with ShippingPrice := 12000 }⟩).2.2.1).trans
      (by decide),
    (congrArg Prod.fst (price_forwarded_as_code_point goJson (Gateway.echoing 2) [] ""
      ⟨fun _ => "", goJson.Marshal { sampleCar 0 with CustomerPrice := 950000 }⟩).2.2.2).trans
      (by decide),
    ((price_forwarded_as_code_point goJson (Gateway.echoing 6) [] "" ⟨fun _ => "", ""⟩).1
      450000).2.2.2,
    by decide,
    (((price_forwarded_as_code_point goJson (Gateway.echoing 6) [] "" ⟨fun _ => "", ""⟩).1
      450000).1 (by decide)).1⟩

end CarDemo
